import Mathlib

/-!
# cocaine-core: slave runtime, plugin repository, process isolate

A shallow embedding of `src/slave/slave.cpp`, `src/repository.cpp`,
`src/isolates/process.cpp` and `include/cocaine/rpc/asio/encoder.hpp`, and the properties of the
design document checked against it.

Conventions of the embedding.

* Handlers of `slave_t` are functions from the slave state to the list of bus observations they
  produce (frames sent, command tags received) and the next state.
* Log statements are not part of the state.
* `BOOST_ASSERT` is embedded as it behaves in a release build: execution continues, and the
  field `failed_assertions` records that an asserted condition was false.
* Time is the clock of the event loop, in milliseconds; timers hold their absolute deadline.
-/

namespace cocaine

/-! ## Protocol -/

/-- Modelled from the spec: the error codes carried by `rpc::error` frames; the enumeration is
declared in a header that is not part of the sources. -/
def server_error : Nat := 1

/-- Modelled from the spec: the error code reported for failures of user code. -/
def app_error : Nat := 2

/-- Command tag of an incoming frame, `io::get<rpc::...>::value`. The numeric values are declared
in `rpc.hpp`, so the tag is kept symbolic; `unknown code` is any tag outside the enumeration. -/
inductive command where
  | ping
  | pong
  | invoke
  | chunk
  | error
  | choke
  | terminate
  | unknown (code : Int)
deriving DecidableEq

/-- A frame as sent by the slave, `io::message<rpc::...>`, with its payload. -/
inductive message where
  | ping
  | pong
  | invoke (event : String)
  | chunk (body : String)
  | error (code : Nat) (what : String)
  | choke
  | terminate
deriving DecidableEq

/-- A multipart frame queued by the engine: the leading command tag and the payload parts. -/
structure multipart where
  command : command
  payload : List String
deriving DecidableEq

/-- What can be observed on the bus while a handler runs, in order. -/
inductive observation where
  | sent (frame : message)
  | received (tag : command)
deriving DecidableEq

/-! ## Message bus -/

/-- Modelled from the spec: `io::channel`, the framed duplex channel of section 4.4, whose
implementation is not part of the sources. `inbound` holds the complete frames queued by the
engine, oldest first; `current` holds the parts of the frame being received that have not been
consumed yet. Sending is non-blocking and always succeeds, so sent frames are observations and
not state. -/
structure channel where
  inbound : List multipart
  current : List String
deriving DecidableEq

/-- Readiness indicator, `pending()`. -/
def channel.pending (c : channel) : Bool :=
  !c.inbound.isEmpty

/-- Mid-frame indicator, `more()`. -/
def channel.more (c : channel) : Bool :=
  !c.current.isEmpty

/-- Receiving just the command tag, `recv(command)`: nothing on timeout, otherwise the tag of the
next frame, whose payload parts become the current frame. -/
def channel.recv (c : channel) : Option command × channel :=
  match c.inbound with
  | [] => (none, c)
  | m :: rest => (some m.command, { inbound := rest, current := m.payload })

/-- Receiving one payload part of the current frame as a string, `recv(event)`; when the frame
has no part left the string stays empty. -/
def channel.recv_string (c : channel) : String × channel :=
  match c.current with
  | [] => ("", c)
  | part :: parts => (part, { c with current := parts })

/-- Atomic receive of a full `(command, body)` frame, `recv_tuple(proxy)`: nothing on timeout. -/
def channel.recv_tuple (c : channel) : Option (command × String) × channel :=
  match c.inbound with
  | [] => (none, c)
  | m :: rest => (some (m.command, m.payload.headD ""), { inbound := rest, current := [] })

/-- Discarding the remainder of the current multipart frame, `drop()`. -/
def channel.drop (c : channel) : channel :=
  { c with current := [] }

/-! ## Sandbox -/

/-- One call of `sandbox_t::invoke(event, io)`, seen from the slave: the sandbox calls back
`io.write` and `io.read` any number of times, then returns or throws. `σ` is the state the
sandbox keeps between invocations. -/
inductive invocation (σ : Type) where
  | returns (state : σ)
  | unrecoverable_error (what : String) (state : σ)
  | exception (what : String) (state : σ)
  | throws (state : σ)
  | write (data : String) (next : invocation σ)
  | read (timeout : Int) (next : String → invocation σ)

/-- The sandbox instance owned by the slave, `m_sandbox`. -/
structure sandbox_t (σ : Type) where
  state : σ
  invoke : σ → String → invocation σ

/-- How the call `m_sandbox->invoke(event, *this)` left the try block. -/
inductive outcome where
  | returned
  | unrecoverable_error (what : String)
  | exception (what : String)
  | unknown
deriving DecidableEq

/-! ## Slave -/

/-- The part of `profile_t` the slave reads. -/
structure profile_t where
  idle_timeout : Nat
deriving DecidableEq

/-- The state of `slave_t`. Timers hold `some deadline` while armed. `now`, `unlooped` and `fed`
are the state of `m_loop`: its clock, whether `unloop` was called, and the number of synthetic
fd events fed to it. -/
structure slave_t (σ : Type) where
  m_bus : channel
  m_checker : Bool
  m_heartbeat_timer : Option Nat
  m_disown_timer : Option Nat
  m_idle_timer : Option Nat
  m_profile : profile_t
  m_sandbox : sandbox_t σ
  now : Nat
  unlooped : Bool
  fed : Nat
  failed_assertions : Bool

variable {σ : Type}

/-- The read path offered to the sandbox, `slave_t::read(timeout)`: an empty string on timeout. -/
def slave_t.read (s : slave_t σ) (_timeout : Int) : String × slave_t σ :=
  match s.m_bus.recv_tuple with
  | (none, _) => ("", s)
  | (some (tag, body), bus) =>
    (body, { s with m_bus := bus
                    failed_assertions := s.failed_assertions || decide (tag ≠ command.chunk) })

/-- The write path offered to the sandbox, `slave_t::write(data, size)`. -/
def slave_t.write (s : slave_t σ) (data : String) : List observation × slave_t σ :=
  ([observation.sent (message.chunk data)], s)

/-- Running the body of `sandbox_t::invoke` against the slave it was handed as `io`. -/
def invocation.run : invocation σ → slave_t σ → List observation × outcome × slave_t σ
  | .returns st, s => ([], outcome.returned, { s with m_sandbox := { s.m_sandbox with state := st } })
  | .unrecoverable_error what st, s =>
    ([], outcome.unrecoverable_error what, { s with m_sandbox := { s.m_sandbox with state := st } })
  | .exception what st, s =>
    ([], outcome.exception what, { s with m_sandbox := { s.m_sandbox with state := st } })
  | .throws st, s => ([], outcome.unknown, { s with m_sandbox := { s.m_sandbox with state := st } })
  | .write data next, s =>
    let w := s.write data
    let r := next.run w.2
    (w.1 ++ r.1, r.2)
  | .read timeout next, s =>
    let r := s.read timeout
    (next r.1).run r.2

/-- The frame sent by the catch clause entered for an outcome of the try block. -/
def caught : outcome → List observation
  | .returned => []
  | .unrecoverable_error what => [observation.sent (message.error server_error what)]
  | .exception what => [observation.sent (message.error app_error what)]
  | .unknown =>
    [observation.sent (message.error server_error "unexpected exception while processing an event")]

/-- The handler of an invoke command, `slave_t::invoke(event)`. -/
def slave_t.invoke (s : slave_t σ) (event : String) : List observation × slave_t σ :=
  let r := (s.m_sandbox.invoke s.m_sandbox.state event).run s
  let s1 := r.2.2
  let stopped := { s1 with m_idle_timer := none }
  let started := { stopped with m_idle_timer := some (stopped.now + stopped.m_profile.idle_timeout) }
  (r.1 ++ caught r.2.1 ++ [observation.sent message.choke], { started with fed := started.fed + 1 })

/-- Sending terminate and leaving the loop, `slave_t::terminate()`. -/
def slave_t.terminate (s : slave_t σ) : List observation × slave_t σ :=
  ([observation.sent message.terminate], { s with unlooped := true })

/-- The dispatch on one incoming command, `slave_t::process_events()`. -/
def slave_t.process_events (s : slave_t σ) : List observation × slave_t σ :=
  let s0 := { s with failed_assertions := s.failed_assertions || s.m_bus.more }
  match s0.m_bus.recv with
  | (none, _) => ([], s0)
  | (some tag, bus) =>
    let s1 := { s0 with m_bus := bus }
    match tag with
    | .pong => ([observation.received tag], { s1 with m_disown_timer := none })
    | .invoke =>
      let e := s1.m_bus.recv_string
      let r := slave_t.invoke { s1 with m_bus := e.2 } e.1
      (observation.received tag :: r.1, r.2)
    | .chunk => ([observation.received tag], { s1 with m_bus := s1.m_bus.drop })
    | .terminate =>
      let r := s1.terminate
      (observation.received tag :: r.1, r.2)
    | _ => ([observation.received tag], { s1 with m_bus := s1.m_bus.drop })

/-- The fd watcher callback, `slave_t::on_event`. -/
def slave_t.on_event (s : slave_t σ) : List observation × slave_t σ :=
  let s1 := { s with m_checker := false }
  if s1.m_bus.pending then slave_t.process_events { s1 with m_checker := true } else ([], s1)

/-- The prepare watcher callback, `slave_t::on_check`. -/
def slave_t.on_check (s : slave_t σ) : List observation × slave_t σ :=
  ([], { s with fed := s.fed + 1 })

/-- The heartbeat timer callback, `slave_t::on_heartbeat`. -/
def slave_t.on_heartbeat (s : slave_t σ) : List observation × slave_t σ :=
  ([observation.sent message.ping], { s with m_disown_timer := some (s.now + 5000) })

/-- The disown timer callback, `slave_t::on_disown`. -/
def slave_t.on_disown (s : slave_t σ) : List observation × slave_t σ :=
  ([], { s with unlooped := true })

/-- The idle timer callback, `slave_t::on_idle`. -/
def slave_t.on_idle (s : slave_t σ) : List observation × slave_t σ :=
  s.terminate

/-! ## Event loop -/

/-- What happens to a slave between two handlers: the engine queues a frame, the loop clock
advances, or the loop dispatches one of the five watchers. -/
inductive event where
  | deliver (frame : multipart)
  | elapse (dt : Nat)
  | readable
  | prepare
  | heartbeat
  | disown
  | idle
deriving DecidableEq

/-- Modelled from the spec: one turn of the event loop `m_loop.loop()` entered by
`slave_t::run()`. The loop library is not part of the sources. A watcher callback is dispatched
only while the loop has not been unlooped (`unloop` returns from `run()`), only for an active
watcher, and for a timer only once its deadline is reached; a one-shot timer is inactive when
its callback runs, the repeating heartbeat timer is rescheduled 5 s later. -/
def slave_t.dispatch (s : slave_t σ) : event → List observation × slave_t σ
  | .deliver frame =>
    ([], { s with m_bus := { s.m_bus with inbound := s.m_bus.inbound ++ [frame] } })
  | .elapse dt => ([], { s with now := s.now + dt })
  | .readable => if s.unlooped then ([], s) else s.on_event
  | .prepare => if s.unlooped || !s.m_checker then ([], s) else s.on_check
  | .heartbeat =>
    match s.m_heartbeat_timer with
    | none => ([], s)
    | some deadline =>
      if s.unlooped || decide (s.now < deadline) then ([], s)
      else slave_t.on_heartbeat { s with m_heartbeat_timer := some (max (deadline + 5000) s.now) }
  | .disown =>
    match s.m_disown_timer with
    | none => ([], s)
    | some deadline =>
      if s.unlooped || decide (s.now < deadline) then ([], s)
      else slave_t.on_disown { s with m_disown_timer := none }
  | .idle =>
    match s.m_idle_timer with
    | none => ([], s)
    | some deadline =>
      if s.unlooped || decide (s.now < deadline) then ([], s)
      else slave_t.on_idle { s with m_idle_timer := none }

/-- The slave's life after construction, `slave_t::run()`, along a schedule of events. -/
def slave_t.run (s : slave_t σ) : List event → List observation × slave_t σ
  | [] => ([], s)
  | e :: es =>
    let r := s.dispatch e
    let rest := slave_t.run r.2 es
    (r.1 ++ rest.1, rest.2)

/-! ## Construction -/

/-- What a failing step of the constructor throws: a `std::exception` or anything else. -/
inductive failure where
  | exception (what : String)
  | unknown
deriving DecidableEq

/-- The collaborators of the constructor: the loop clock, and the results of loading the
manifest, loading the profile and asking the context for the sandbox. -/
structure startup (σ : Type) where
  now : Nat
  manifest : Except failure Unit
  profile : Except failure profile_t
  sandbox : Except failure (sandbox_t σ)

/-- The catch clauses of the constructor: the error frame, then `terminate()`. -/
def startup_failed : failure → List observation
  | .exception what =>
    [observation.sent (message.error server_error what), observation.sent message.terminate]
  | .unknown =>
    [observation.sent (message.error server_error "unexpected exception while configuring the slave"),
     observation.sent message.terminate]

/-- The constructor `slave_t::slave_t(context, config)`: the frames it sends, and either the
constructed slave or the failure rethrown to the caller. -/
def slave_t.construct (c : startup σ) : List observation × Except failure (slave_t σ) :=
  match c.manifest with
  | .error e => (startup_failed e, .error e)
  | .ok _ =>
    match c.profile with
    | .error e => (startup_failed e, .error e)
    | .ok profile =>
      match c.sandbox with
      | .error e => (startup_failed e, .error e)
      | .ok sandbox =>
        ([], .ok { m_bus := { inbound := [], current := [] }
                   m_checker := true
                   m_heartbeat_timer := some (c.now + 0)
                   m_disown_timer := none
                   m_idle_timer := some (c.now + profile.idle_timeout)
                   m_profile := profile
                   m_sandbox := sandbox
                   now := c.now
                   unlooped := false
                   fed := 0
                   failed_assertions := false })

/-! ## Plugin repository -/

/-- A failure raised by the repository, `repository_error_t`, with its message. -/
structure repository_error_t where
  what : String
deriving DecidableEq

/-- A factory held in a category map; `source` is the shared object that holds its code. -/
structure factory_t where
  source : String
deriving DecidableEq

/-- One call `repository.insert<T>(type)` made by a plugin: the category of `T` and the name. -/
structure registration where
  category : String
  type : String
deriving DecidableEq

/-- The behaviour of the function a plugin exports under the name `initialize`,
`initialize_fn_t`: the registrations it makes, in order, and whether it then returns or throws. -/
structure init_fn_t where
  inserts : List registration
  result : Except failure Unit

/-- A shared object as the dynamic loader sees it: the version returned by the exported
`validation` function, when the symbol is there, and the exported `initialize` function, when
the symbol is there. -/
structure shared_object where
  validation : Option Nat
  init : Option init_fn_t

/-- An entry of the plugin directory, with what `lt_dlopenadvise` obtains for it: the shared
object, or the text of `lt_dlerror()` when the file cannot be loaded. -/
structure directory_entry where
  path : String
  regular_file : Bool
  extension : String
  object : Except String shared_object

/-- Calls into the dynamic loader and into plugin code, recorded in order. -/
inductive call where
  | lt_dlopenadvise (target : String)
  | lt_dlclose (target : String)
  | validation (target : String)
  | init (target : String)
deriving DecidableEq

/-- The state of `repository_t`: the category maps keyed by category and type name, the retained
plugin handles (a handle is named by the path it was opened from), and the record of calls. -/
structure repository_t where
  m_categories : List ((String × String) × factory_t)
  m_plugins : List String
  calls : List call
deriving DecidableEq

/-- Modelled from the spec: `repository_t::insert<T>(type)`, declared in `repository.hpp`, which
is not part of the sources: it registers a factory for the category under the type name. -/
def repository_t.insert (source : String) (r : repository_t) (reg : registration) : repository_t :=
  { r with m_categories :=
      r.m_categories.filter (fun entry => entry.1 ≠ (reg.category, reg.type))
        ++ [((reg.category, reg.type), { source := source })] }

/-- Modelled from the spec: `repository_t::get<C>(type, args)`, declared in `repository.hpp`: it
looks the factory up and fails with `ComponentNotFound` when it is absent. -/
def repository_t.get (r : repository_t) (category type : String) :
    Except repository_error_t factory_t :=
  match r.m_categories.lookup (category, type) with
  | some factory => .ok factory
  | none => .error { what := "the '" ++ type ++ "' component is not available" }

/-- The deleter of the `unique_ptr` holding the handle inside `open`, `lt_dlclose_action`. -/
def repository_t.lt_dlclose_action (r : repository_t) (target : String) : repository_t :=
  { r with calls := r.calls ++ [call.lt_dlclose target] }

/-- The second half of `repository_t::open`, from the test of `initialize.ptr` on. -/
def repository_t.open_initialize (r : repository_t) (target : String) (plugin : shared_object) :
    Except repository_error_t Unit × repository_t :=
  match plugin.init with
  | some init_fn =>
    let called := { r with calls := r.calls ++ [call.init target] }
    let r1 := init_fn.inserts.foldl (repository_t.insert target) called
    match init_fn.result with
    | .ok _ => (.ok (), { r1 with m_plugins := r1.m_plugins ++ [target] })
    | .error (failure.exception what) =>
      (.error { what := "unable to initialize '" ++ target ++ "' - " ++ what },
       r1.lt_dlclose_action target)
    | .error failure.unknown =>
      (.error { what := "unable to initialize '" ++ target ++ "'" }, r1.lt_dlclose_action target)
  | none =>
    (.error { what := "unable to initialize '" ++ target ++ "' - initialize() is missing" },
     r.lt_dlclose_action target)

/-- Loading one plugin, `repository_t::open(target)` (named `open_` because `open` is reserved).
`COCAINE_VERSION` is the version macro of the host and `file` is what the loader finds at
`target`. The result is what the call returns or throws, and the repository it leaves. -/
def repository_t.open_ (COCAINE_VERSION : Nat) (r : repository_t) (target : String)
    (file : Except String shared_object) : Except repository_error_t Unit × repository_t :=
  let r0 := { r with calls := r.calls ++ [call.lt_dlopenadvise target] }
  match file with
  | .error lt_dlerror =>
    (.error { what := "unable to load '" ++ target ++ "' - " ++ lt_dlerror }, r0)
  | .ok plugin =>
    match plugin.validation with
    | some version =>
      let r1 := { r0 with calls := r0.calls ++ [call.validation target] }
      if version > COCAINE_VERSION then
        (.error { what := "'" ++ target ++ "' version requirements are not met" },
         r1.lt_dlclose_action target)
      else r1.open_initialize target plugin
    | none => r0.open_initialize target plugin

/-- The filter on directory entries, `validate_t`. -/
def validate_t (entry : directory_entry) : Bool :=
  entry.regular_file && entry.extension == ".cocaine-plugin"

/-- The loop of `repository_t::load` over the filtered directory entries: an exception thrown by
`open` leaves the loop. -/
def repository_t.load_entries (COCAINE_VERSION : Nat) (r : repository_t) :
    List directory_entry → Except repository_error_t Unit × repository_t
  | [] => (.ok (), r)
  | entry :: entries =>
    match r.open_ COCAINE_VERSION entry.path entry.object with
    | (.error e, r1) => (.error e, r1)
    | (.ok _, r1) => repository_t.load_entries COCAINE_VERSION r1 entries

/-- Loading a plugin directory, `repository_t::load(path)`. `listing` is `none` when the path
does not exist or is not a directory, otherwise the entries in enumeration order. -/
def repository_t.load (COCAINE_VERSION : Nat) (r : repository_t)
    (listing : Option (List directory_entry)) : Except repository_error_t Unit × repository_t :=
  match listing with
  | none => (.ok (), r)
  | some entries => r.load_entries COCAINE_VERSION (entries.filter validate_t)

/-- The destructor `repository_t::~repository_t()`: the factories go first, then the plugins. -/
def repository_t.destroy (r : repository_t) : repository_t :=
  let cleared := { r with m_categories := [] }
  { cleared with calls := cleared.calls ++ cleared.m_plugins.map call.lt_dlclose }

/-! ## Process isolate -/

/-- The content of one slot of a `char*` array. -/
inductive cell where
  | uninitialized
  | null
  | str (value : String)
deriving DecidableEq

/-- A variable-length array of `char*` on the stack of the child, with the stores made through
it: `slots` are the elements of the array, `outside` records the stores whose index is not an
index of the array, in order. -/
structure c_array where
  slots : List cell
  outside : List (Nat × cell)
deriving DecidableEq

/-- The declaration `char * a[n]`. -/
def c_array.declare (n : Nat) : c_array :=
  { slots := List.replicate n cell.uninitialized, outside := [] }

/-- The expression `sizeof(a) / sizeof(a[0])`. -/
def c_array.size (a : c_array) : Nat :=
  a.slots.length

/-- The assignment `a[i] = value`. -/
def c_array.store (a : c_array) (i : Nat) (value : cell) : c_array :=
  if i < a.slots.length then { a with slots := a.slots.set i value }
  else { a with outside := a.outside ++ [(i, value)] }

/-- What `process_t::spawn` comes to after `fork()`. -/
inductive spawned where
  | execve (argv envp : c_array)
  | handle (pid : Int)
deriving DecidableEq

/-- The isolate `process_t::spawn(path, args, environment)`, for a result `pid` of `fork()`.
The maps are given as their entries in iteration order. In the child the result is the pair of
arrays handed to `execve`. -/
def process_t.spawn (pid : Int) (path : String) (args environment : List (String × String)) :
    Except String spawned :=
  if pid = 0 then
    let argv := c_array.declare (args.length * 2 + 2)
    let envp := c_array.declare (environment.length + 1)
    let argv := argv.store 0 (cell.str path)
    let argv := argv.store argv.size cell.null
    let envp := envp.store envp.size cell.null
    let argv := (args.foldl
      (fun (acc : c_array × Nat) it =>
        ((acc.1.store acc.2 (cell.str it.1)).store (acc.2 + 1) (cell.str it.2), acc.2 + 2))
      (argv, 1)).1
    let envp := (environment.foldl
      (fun (acc : c_array × Nat) it => (acc.1.store acc.2 (cell.str (it.1 ++ "=" ++ it.2)), acc.2 + 1))
      (envp, 0)).1
    .ok (spawned.execve argv envp)
  else if pid < 0 then .error "fork() failed"
  else .ok (spawned.handle pid)

/-- The strings `k1, v1, ..., kn, vn` of an argument map, as cells. -/
def argv_cells : List (String × String) → List cell
  | [] => []
  | it :: rest => cell.str it.1 :: cell.str it.2 :: argv_cells rest

/-! ## Heartbeat bookkeeping -/

/-- Whether a ping is outstanding after one more observation: a sent ping raises the flag, a
received pong clears it, anything else leaves it. -/
def outstanding_after (flag : Bool) : observation → Bool
  | .sent .ping => true
  | .received .pong => false
  | _ => flag

/-- Whether, at the end of a history of observations, a ping has been sent that no later pong
has answered, computed by one pass over the history. -/
def ping_outstanding (history : List observation) : Bool :=
  history.foldl outstanding_after false

/-! ## Scenarios -/

/-- A sandbox in the manner of the scenarios of the design document: `echo` reads one chunk and
writes it back, `fail` raises a user error, `fatal` an unrecoverable error, `crash` throws
something that is not a `std::exception`, and any other event returns at once. The state counts
the invocations served. -/
def scenario_sandbox : sandbox_t Nat :=
  { state := 0
    invoke := fun served event =>
      if event = "echo" then
        invocation.read 1000 (fun body => invocation.write body (invocation.returns (served + 1)))
      else if event = "fail" then invocation.exception "no such event" (served + 1)
      else if event = "fatal" then invocation.unrecoverable_error "interpreter is gone" (served + 1)
      else if event = "crash" then invocation.throws (served + 1)
      else invocation.returns (served + 1) }

/-- A start-up in which every step of the constructor succeeds, with an idle timeout of 60 s. -/
def scenario_startup : startup Nat :=
  { now := 0
    manifest := .ok ()
    profile := .ok { idle_timeout := 60000 }
    sandbox := .ok scenario_sandbox }

/-- The slave constructed by `scenario_startup`. -/
def scenario_slave : slave_t Nat :=
  { m_bus := { inbound := [], current := [] }
    m_checker := true
    m_heartbeat_timer := some 0
    m_disown_timer := none
    m_idle_timer := some 60000
    m_profile := { idle_timeout := 60000 }
    m_sandbox := scenario_sandbox
    now := 0
    unlooped := false
    fed := 0
    failed_assertions := false }

/-- The repository as `repository_t::repository_t` leaves it: no category, no plugin. -/
def repository_t.construct : repository_t :=
  { m_categories := [], m_plugins := [], calls := [] }

/-- The targets handed to `lt_dlopenadvise` in a record of calls, in order. -/
def opened_targets (calls : List call) : List String :=
  calls.filterMap (fun c => match c with
    | call.lt_dlopenadvise target => some target
    | _ => none)

/-- Plugin A of scenario S6: its version requirement is met and it registers a sandbox type. -/
def plugin_a : directory_entry :=
  { path := "/usr/lib/cocaine/a.cocaine-plugin"
    regular_file := true
    extension := ".cocaine-plugin"
    object := Except.ok
      { validation := some 11
        init := some { inserts := [⟨"sandbox", "python"⟩], result := .ok () } } }

/-- Plugin B of scenario S6: it asks for a version above that of the host. -/
def plugin_b : directory_entry :=
  { path := "/usr/lib/cocaine/b.cocaine-plugin"
    regular_file := true
    extension := ".cocaine-plugin"
    object := Except.ok
      { validation := some 99
        init := some { inserts := [⟨"sandbox", "nodejs"⟩], result := .ok () } } }

/-- A plugin whose `initialize` registers a storage type and then throws. -/
def plugin_c : directory_entry :=
  { path := "/usr/lib/cocaine/c.cocaine-plugin"
    regular_file := true
    extension := ".cocaine-plugin"
    object := Except.ok
      { validation := none
        init := some { inserts := [⟨"storage", "files"⟩]
                       result := .error (failure.exception "no spool") } } }

/-! ## Destruction of the repository, statement by statement -/

/-- The loop `std::for_each(m_plugins.begin(), m_plugins.end(), lt_dlclose_action())` of the
destructor: the repository after each call of the action, in order. -/
def repository_t.dispose : repository_t → List String → List repository_t
  | _, [] => []
  | r, plugin :: plugins =>
    r.lt_dlclose_action plugin :: repository_t.dispose (r.lt_dlclose_action plugin) plugins

/-- The states the repository goes through in `repository_t::~repository_t()`: the one left by
`m_categories.clear()`, then the one after each `lt_dlclose`. -/
def repository_t.destructor (r : repository_t) : List repository_t :=
  { r with m_categories := [] } ::
    repository_t.dispose { r with m_categories := [] } r.m_plugins

/-! ## Echo -/

/-- The body of a sandbox that echoes its input: it reads a chunk with `io.read`, returns when
the read reports nothing (an empty string), and otherwise writes the chunk back with `io.write`
and starts over. `rounds` bounds the number of reads. -/
def echo (timeout : Int) (state : σ) : Nat → invocation σ
  | 0 => invocation.returns state
  | rounds + 1 =>
    invocation.read timeout (fun body =>
      if body = "" then invocation.returns state
      else invocation.write body (echo timeout state rounds))

/-- A slave of the scenarios whose sandbox is the echo, with the given frames on its bus. -/
def echo_slave (rounds : Nat) (inbound : List multipart) : slave_t Nat :=
  { scenario_slave with
    m_bus := { inbound := inbound, current := [] }
    m_sandbox := { state := 0, invoke := fun state _ => echo 1000 state rounds } }

/-! ## Shape of the incoming frames -/

/-- The payload that the wire-frame table gives the commands which `process_events` does not
drop: none for `pong` and `terminate`, the event for `invoke`. -/
def multipart.conforms (frame : multipart) : Bool :=
  match frame.command with
  | .pong => frame.payload.isEmpty
  | .terminate => frame.payload.isEmpty
  | .invoke => frame.payload.length == 1
  | _ => true

/-! ## Encoder buffer -/

/-- The growth `std::vector<char>::resize(n)`: the elements are kept and zero bytes appended. -/
def vector_resize (vector : List Nat) (n : Nat) : List Nat :=
  vector.take n ++ List.replicate (n - vector.length) 0

/-- The copy `std::memcpy(vector.data() + offset, data, size)`, for a destination range that
lies inside the vector. -/
def vector_memcpy (vector : List Nat) (offset : Nat) (data : List Nat) : List Nat :=
  vector.take offset ++ data ++ vector.drop (offset + data.length)

/-- The constant `encoded_buffers_t::kInitialBufferSize`. -/
def kInitialBufferSize : Nat := 4096

/-- The state of `aux::encoded_buffers_t`: the bytes of `vector` and the write offset. Sizes
are natural numbers: a failing allocation and the range of `size_t` are not part of the
embedding. -/
structure encoded_buffers_t where
  vector : List Nat
  offset : Nat
deriving DecidableEq

/-- The constructor `encoded_buffers_t()`. -/
def encoded_buffers_t.construct : encoded_buffers_t :=
  { vector := vector_resize [] kInitialBufferSize, offset := 0 }

/-- The loop `while(size > vector.size() - offset) vector.resize(vector.size() * 2)` of
`write`, allowed `fuel` turns: `none` when the loop has not ended within them. -/
def encoded_buffers_t.reserve : Nat → Nat → encoded_buffers_t → Option encoded_buffers_t
  | fuel, size, b =>
    if size > b.vector.length - b.offset then
      match fuel with
      | 0 => none
      | fuel + 1 =>
        encoded_buffers_t.reserve fuel size
          { b with vector := vector_resize b.vector (b.vector.length * 2) }
    else some b

/-- The method `encoded_buffers_t::write(data, size)`, its loop allowed `fuel` turns. -/
def encoded_buffers_t.write (fuel : Nat) (data : List Nat) (b : encoded_buffers_t) :
    Option encoded_buffers_t :=
  match encoded_buffers_t.reserve fuel data.length b with
  | none => none
  | some grown =>
    some { vector := vector_memcpy grown.vector grown.offset data
           offset := grown.offset + data.length }

/-- A sequence of calls `write(d1), ..., write(dk)` on the same buffer. -/
def encoded_buffers_t.write_all (fuel : Nat) :
    List (List Nat) → encoded_buffers_t → Option encoded_buffers_t
  | [], b => some b
  | data :: rest, b =>
    match b.write fuel data with
    | none => none
    | some written => encoded_buffers_t.write_all fuel rest written

/-- The message `aux::encoded_message_t` around its buffer. -/
structure encoded_message_t where
  buffer : encoded_buffers_t
deriving DecidableEq

/-- The accessor `encoded_message_t::data()`: the bytes that start at the returned pointer. -/
def encoded_message_t.data (m : encoded_message_t) : List Nat :=
  m.buffer.vector

/-- The accessor `encoded_message_t::size()`. -/
def encoded_message_t.size (m : encoded_message_t) : Nat :=
  m.buffer.offset

/-! ## Facts about the sandbox callbacks -/

/-- Every observation made while the sandbox body runs is a chunk frame being sent. -/
theorem invocation.run_trace (p : invocation σ) :
    ∀ s : slave_t σ, ∀ o ∈ (p.run s).1, ∃ data, o = observation.sent (message.chunk data) := by
  induction p with
  | returns st => intro s o h; simp [invocation.run] at h
  | unrecoverable_error what st => intro s o h; simp [invocation.run] at h
  | exception what st => intro s o h; simp [invocation.run] at h
  | throws st => intro s o h; simp [invocation.run] at h
  | write data next ih =>
    intro s o h
    simp only [invocation.run, slave_t.write, List.mem_append, List.mem_singleton] at h
    rcases h with h | h
    · exact ⟨data, h⟩
    · exact ih _ o h
  | read timeout next ih =>
    intro s o h
    simp only [invocation.run] at h
    exact ih _ _ o h

/-- The sandbox callbacks leave the timers, the loop and the checker alone. -/
theorem slave_t.read_frame (s : slave_t σ) (timeout : Int) :
    (s.read timeout).2.unlooped = s.unlooped ∧ (s.read timeout).2.now = s.now ∧
    (s.read timeout).2.m_profile = s.m_profile ∧
    (s.read timeout).2.m_disown_timer = s.m_disown_timer ∧
    (s.read timeout).2.m_heartbeat_timer = s.m_heartbeat_timer ∧
    (s.read timeout).2.m_idle_timer = s.m_idle_timer ∧
    (s.read timeout).2.fed = s.fed ∧ (s.read timeout).2.m_checker = s.m_checker := by
  unfold slave_t.read
  cases h : s.m_bus.recv_tuple with
  | mk r bus =>
    cases r with
    | none => simp
    | some tb => simp

/-- Running the sandbox body leaves the timers, the loop and the checker alone. -/
theorem invocation.run_frame (p : invocation σ) :
    ∀ s : slave_t σ,
      (p.run s).2.2.unlooped = s.unlooped ∧ (p.run s).2.2.now = s.now ∧
      (p.run s).2.2.m_profile = s.m_profile ∧
      (p.run s).2.2.m_disown_timer = s.m_disown_timer ∧
      (p.run s).2.2.m_heartbeat_timer = s.m_heartbeat_timer ∧
      (p.run s).2.2.m_idle_timer = s.m_idle_timer ∧
      (p.run s).2.2.fed = s.fed ∧ (p.run s).2.2.m_checker = s.m_checker := by
  induction p with
  | returns st => intro s; simp [invocation.run]
  | unrecoverable_error what st => intro s; simp [invocation.run]
  | exception what st => intro s; simp [invocation.run]
  | throws st => intro s; simp [invocation.run]
  | write data next ih => intro s; simpa [invocation.run, slave_t.write] using ih s
  | read timeout next ih =>
    intro s
    simp only [invocation.run]
    have h1 := ih (s.read timeout).1 (s.read timeout).2
    have h2 := s.read_frame timeout
    rcases h1 with ⟨a1, a2, a3, a4, a5, a6, a7, a8⟩
    rcases h2 with ⟨b1, b2, b3, b4, b5, b6, b7, b8⟩
    exact ⟨a1.trans b1, a2.trans b2, a3.trans b3, a4.trans b4, a5.trans b5, a6.trans b6,
      a7.trans b7, a8.trans b8⟩

/-! ## The invocation protocol -/

/-- The frame of a catch clause is an error frame. -/
theorem caught_error (r : outcome) :
    ∀ o ∈ caught r, ∃ code what, o = observation.sent (message.error code what) := by
  intro o h
  cases r <;> simp [caught] at h <;> exact ⟨_, _, h⟩

/-- C1: whatever the sandbox does during `slave_t::invoke`, the frames sent are chunk and error
frames followed by one choke frame, which is the last frame of the invocation and the only
choke. -/
theorem invoke_one_choke_last (s : slave_t σ) (event : String) :
    ∃ body : List observation,
      (s.invoke event).1 = body ++ [observation.sent message.choke] ∧
      (∀ o ∈ body, (∃ data, o = observation.sent (message.chunk data)) ∨
        (∃ code what, o = observation.sent (message.error code what))) ∧
      (s.invoke event).1.count (observation.sent message.choke) = 1 := by
  have hbody : ∀ o ∈ ((s.m_sandbox.invoke s.m_sandbox.state event).run s).1 ++
      caught ((s.m_sandbox.invoke s.m_sandbox.state event).run s).2.1,
      (∃ data, o = observation.sent (message.chunk data)) ∨
        (∃ code what, o = observation.sent (message.error code what)) := by
    intro o h
    rcases List.mem_append.1 h with h | h
    · exact Or.inl (invocation.run_trace _ s o h)
    · exact Or.inr (caught_error _ o h)
  refine ⟨_, rfl, hbody, ?_⟩
  have hnot : observation.sent message.choke ∉
      ((s.m_sandbox.invoke s.m_sandbox.state event).run s).1 ++
        caught ((s.m_sandbox.invoke s.m_sandbox.state event).run s).2.1 := by
    intro h
    rcases hbody _ h with ⟨data, hd⟩ | ⟨code, what, he⟩
    · cases hd
    · cases he
  simp only [slave_t.invoke, List.count_append, List.count_eq_zero_of_not_mem hnot]
  simp

/-- C1, on a concrete invocation: the echo of one chunk. -/
theorem invoke_one_choke_last_witness :
    ∃ body : List observation,
      (slave_t.invoke { scenario_slave with m_bus := { inbound := [⟨command.chunk, ["hi"]⟩], current := [] } }
        "echo").1 = body ++ [observation.sent message.choke] ∧
      (∀ o ∈ body, (∃ data, o = observation.sent (message.chunk data)) ∨
        (∃ code what, o = observation.sent (message.error code what))) ∧
      (slave_t.invoke { scenario_slave with m_bus := { inbound := [⟨command.chunk, ["hi"]⟩], current := [] } }
        "echo").1.count (observation.sent message.choke) = 1 :=
  invoke_one_choke_last _ "echo"

/-- C2, as stated, fails: a sandbox that throws something that is neither an unrecoverable
error nor a `std::exception` is answered with `server_error`, and no `app_error` frame is sent. -/
theorem invoke_crash_is_server_error :
    ((scenario_sandbox.invoke 0 "crash").run scenario_slave).2.1 = outcome.unknown ∧
    (slave_t.invoke scenario_slave "crash").1 =
      [observation.sent (message.error server_error "unexpected exception while processing an event"),
       observation.sent message.choke] ∧
    ¬ ∃ what, observation.sent (message.error app_error what) ∈
      (slave_t.invoke scenario_slave "crash").1 := by
  refine ⟨rfl, rfl, ?_⟩
  rintro ⟨what, h⟩
  have h2 : (slave_t.invoke scenario_slave "crash").1 =
      [observation.sent (message.error server_error "unexpected exception while processing an event"),
       observation.sent message.choke] := rfl
  rw [h2] at h
  simp [server_error, app_error] at h

/-- C2, amended: when `sandbox.invoke` fails, the frames of the invocation are the chunks
written before the failure, then one error frame, then choke. The error frame is
`error(server_error, msg)` for an unrecoverable error, `error(app_error, msg)` for any other
`std::exception`, and `error(server_error, "unexpected exception while processing an event")`
for a failure that is not a `std::exception`. The loop is not unlooped by the invocation. -/
theorem invoke_failure_reported (s : slave_t σ) (event : String) :
    (∀ o ∈ ((s.m_sandbox.invoke s.m_sandbox.state event).run s).1,
      ∃ data, o = observation.sent (message.chunk data)) ∧
    (∀ what, ((s.m_sandbox.invoke s.m_sandbox.state event).run s).2.1
        = outcome.unrecoverable_error what →
      (s.invoke event).1 = ((s.m_sandbox.invoke s.m_sandbox.state event).run s).1 ++
        [observation.sent (message.error server_error what), observation.sent message.choke]) ∧
    (∀ what, ((s.m_sandbox.invoke s.m_sandbox.state event).run s).2.1 = outcome.exception what →
      (s.invoke event).1 = ((s.m_sandbox.invoke s.m_sandbox.state event).run s).1 ++
        [observation.sent (message.error app_error what), observation.sent message.choke]) ∧
    (((s.m_sandbox.invoke s.m_sandbox.state event).run s).2.1 = outcome.unknown →
      (s.invoke event).1 = ((s.m_sandbox.invoke s.m_sandbox.state event).run s).1 ++
        [observation.sent
          (message.error server_error "unexpected exception while processing an event"),
         observation.sent message.choke]) ∧
    (s.invoke event).2.unlooped = s.unlooped := by
  refine ⟨invocation.run_trace _ s, ?_, ?_, ?_, ?_⟩
  · intro what h
    simp [slave_t.invoke, h, caught]
  · intro what h
    simp [slave_t.invoke, h, caught]
  · intro h
    simp [slave_t.invoke, h, caught]
  · simpa [slave_t.invoke] using (invocation.run_frame _ s).1

/-- C2, amended, on concrete invocations: a user error after a written chunk, and an
unrecoverable error. -/
theorem invoke_failure_reported_witness :
    (slave_t.invoke scenario_slave "fail").1 =
      [observation.sent (message.error app_error "no such event"),
       observation.sent message.choke] ∧
    (slave_t.invoke scenario_slave "fatal").1 =
      [observation.sent (message.error server_error "interpreter is gone"),
       observation.sent message.choke] ∧
    (slave_t.invoke scenario_slave "fail").2.unlooped = false :=
  ⟨(invoke_failure_reported scenario_slave "fail").2.2.1 "no such event" rfl,
   (invoke_failure_reported scenario_slave "fatal").2.1 "interpreter is gone" rfl,
   (invoke_failure_reported scenario_slave "fail").2.2.2.2⟩

/-! ## Timers -/

/-- C8: after `slave_t::invoke`, however the sandbox left, the idle timer is armed and its
deadline is the clock of the loop at completion plus the idle timeout of the profile. -/
theorem invoke_rearms_idle_timer (s : slave_t σ) (event : String) :
    (s.invoke event).2.m_idle_timer =
      some ((s.invoke event).2.now + (s.invoke event).2.m_profile.idle_timeout) ∧
    (s.invoke event).2.now = s.now ∧ (s.invoke event).2.m_profile = s.m_profile := by
  have h := invocation.run_frame (s.m_sandbox.invoke s.m_sandbox.state event) s
  simp [slave_t.invoke, h.2.1, h.2.2.1]

/-- C8, on scenario S4: an invocation that fails at loop time 7 s leaves the idle timer armed
for 7 s + 60 s. -/
theorem invoke_rearms_idle_timer_witness :
    (slave_t.invoke { scenario_slave with now := 7000 } "fail").2.m_idle_timer = some 67000 :=
  (invoke_rearms_idle_timer { scenario_slave with now := 7000 } "fail").1.trans rfl

/-! ## Orphan chunks and terminate -/

/-- C9: at a frame boundary, `process_events` on a chunk command drops the rest of the frame and
changes nothing else, so that the command that follows (an invoke, say) is processed from the
very state in which the chunk never arrived. -/
theorem orphan_chunk_dropped (s : slave_t σ) (parts : List String) (rest : List multipart) :
    slave_t.process_events
        { s with m_bus := { inbound := ⟨command.chunk, parts⟩ :: rest, current := [] } } =
      ([observation.received command.chunk],
       { s with m_bus := { inbound := rest, current := [] } }) ∧
    slave_t.process_events (slave_t.process_events
        { s with m_bus := { inbound := ⟨command.chunk, parts⟩ :: rest, current := [] } }).2 =
      slave_t.process_events { s with m_bus := { inbound := rest, current := [] } } := by
  have h : slave_t.process_events
        { s with m_bus := { inbound := ⟨command.chunk, parts⟩ :: rest, current := [] } } =
      ([observation.received command.chunk],
       { s with m_bus := { inbound := rest, current := [] } }) := by
    simp [slave_t.process_events, channel.recv, channel.more, channel.drop]
  exact ⟨h, by rw [h]⟩

/-- C9, on scenario S3: a stale chunk queued before an invoke is dropped and leaves the slave
as it was, with the invoke next on the bus. -/
theorem orphan_chunk_dropped_witness :
    slave_t.process_events { scenario_slave with m_bus :=
        { inbound := ⟨command.chunk, ["stale"]⟩ :: [⟨command.invoke, ["noop"]⟩],
          current := [] } } =
      ([observation.received command.chunk],
       { scenario_slave with m_bus :=
          { inbound := [⟨command.invoke, ["noop"]⟩], current := [] } }) :=
  (orphan_chunk_dropped scenario_slave ["stale"] [⟨command.invoke, ["noop"]⟩]).1

/-- Once the loop is unlooped no callback is dispatched any more: nothing is observed and the
loop stays unlooped. -/
theorem slave_t.dispatch_unlooped (s : slave_t σ) (e : event) (h : s.unlooped = true) :
    (s.dispatch e).1 = [] ∧ (s.dispatch e).2.unlooped = true := by
  cases e <;> simp [slave_t.dispatch, h]
  · cases s.m_heartbeat_timer <;> simp [h]
  · cases s.m_disown_timer <;> simp [h]
  · cases s.m_idle_timer <;> simp [h]

/-- Nothing is observed along a schedule that starts in an unlooped state. -/
theorem slave_t.run_unlooped (schedule : List event) :
    ∀ s : slave_t σ, s.unlooped = true →
      (s.run schedule).1 = [] ∧ (s.run schedule).2.unlooped = true := by
  induction schedule with
  | nil => intro s h; exact ⟨rfl, h⟩
  | cons e es ih =>
    intro s h
    have hd := s.dispatch_unlooped e h
    have hr := ih (s.dispatch e).2 hd.2
    simp [slave_t.run, hd.1, hr.1, hr.2]

/-- Two runs whose first dispatch observes the same and unloops observe the same throughout. -/
theorem slave_t.run_cons_unlooped (a b : slave_t σ) (e : event) (es : List event)
    (h1 : (a.dispatch e).1 = (b.dispatch e).1) (h2 : (a.dispatch e).2.unlooped = true)
    (h3 : (b.dispatch e).2.unlooped = true) :
    (a.run (e :: es)).1 = (b.run (e :: es)).1 ∧
      (a.run (e :: es)).2.unlooped = (b.run (e :: es)).2.unlooped := by
  have ha := slave_t.run_unlooped es _ h2
  have hb := slave_t.run_unlooped es _ h3
  simp [slave_t.run, h1, ha.1, ha.2, hb.1, hb.2]

/-- A second terminate queued right behind a first one is never looked at: along any schedule
the observations and the state of the loop are those of the run with the first one alone. -/
theorem slave_t.run_terminate_twice (p1 p2 : List String) (schedule : List event) :
    ∀ (s : slave_t σ) (rest : List multipart),
      (slave_t.run { s with m_bus :=
          { inbound := ⟨command.terminate, p1⟩ :: ⟨command.terminate, p2⟩ :: rest, current := [] } }
        schedule).1 =
      (slave_t.run { s with m_bus :=
          { inbound := ⟨command.terminate, p1⟩ :: rest, current := [] } } schedule).1 ∧
      (slave_t.run { s with m_bus :=
          { inbound := ⟨command.terminate, p1⟩ :: ⟨command.terminate, p2⟩ :: rest, current := [] } }
        schedule).2.unlooped =
      (slave_t.run { s with m_bus :=
          { inbound := ⟨command.terminate, p1⟩ :: rest, current := [] } } schedule).2.unlooped := by
  induction schedule with
  | nil => intro s rest; exact ⟨rfl, rfl⟩
  | cons e es ih =>
    intro s rest
    cases e with
    | deliver frame =>
      simpa [slave_t.run, slave_t.dispatch] using ih s (rest ++ [frame])
    | elapse dt =>
      simpa [slave_t.run, slave_t.dispatch] using ih { s with now := s.now + dt } rest
    | readable =>
      by_cases hu : s.unlooped = true
      · simpa [slave_t.run, slave_t.dispatch, hu] using ih s rest
      · have hu2 : s.unlooped = false := by simpa using hu
        apply slave_t.run_cons_unlooped <;>
          simp [slave_t.dispatch, hu2, slave_t.on_event, channel.pending, slave_t.process_events,
            channel.recv, channel.more, slave_t.terminate]
    | prepare =>
      by_cases hc : (s.unlooped || !s.m_checker) = true
      · simpa [slave_t.run, slave_t.dispatch, hc] using ih s rest
      · simpa [slave_t.run, slave_t.dispatch, hc, slave_t.on_check] using
          ih { s with fed := s.fed + 1 } rest
    | heartbeat =>
      cases ht : s.m_heartbeat_timer with
      | none => simpa [slave_t.run, slave_t.dispatch, ht] using ih s rest
      | some deadline =>
        by_cases hc : (s.unlooped || decide (s.now < deadline)) = true
        · simpa [slave_t.run, slave_t.dispatch, ht, hc] using ih s rest
        · simpa [slave_t.run, slave_t.dispatch, ht, hc, slave_t.on_heartbeat] using
            ih { s with m_heartbeat_timer := some (max (deadline + 5000) s.now)
                        m_disown_timer := some (s.now + 5000) } rest
    | disown =>
      cases ht : s.m_disown_timer with
      | none => simpa [slave_t.run, slave_t.dispatch, ht] using ih s rest
      | some deadline =>
        by_cases hc : (s.unlooped || decide (s.now < deadline)) = true
        · simpa [slave_t.run, slave_t.dispatch, ht, hc] using ih s rest
        · apply slave_t.run_cons_unlooped <;>
            simp [slave_t.dispatch, ht, hc, slave_t.on_disown]
    | idle =>
      cases ht : s.m_idle_timer with
      | none => simpa [slave_t.run, slave_t.dispatch, ht] using ih s rest
      | some deadline =>
        by_cases hc : (s.unlooped || decide (s.now < deadline)) = true
        · simpa [slave_t.run, slave_t.dispatch, ht, hc] using ih s rest
        · apply slave_t.run_cons_unlooped <;>
            simp [slave_t.dispatch, ht, hc, slave_t.on_idle, slave_t.terminate]

/-- C10: receiving terminate is idempotent. From any slave state whose bus stands at a frame
boundary with a terminate command next, a second terminate queued behind the first changes
neither the frames observed on the bus nor the state of the loop, along any schedule of the
event loop; and processing a terminate sends one terminate frame and unloops. -/
theorem terminate_idempotent (s : slave_t σ) (p1 p2 : List String) (rest : List multipart)
    (schedule : List event) :
    (slave_t.run { s with m_bus :=
        { inbound := ⟨command.terminate, p1⟩ :: ⟨command.terminate, p2⟩ :: rest, current := [] } }
      schedule).1 =
    (slave_t.run { s with m_bus :=
        { inbound := ⟨command.terminate, p1⟩ :: rest, current := [] } } schedule).1 ∧
    (slave_t.run { s with m_bus :=
        { inbound := ⟨command.terminate, p1⟩ :: ⟨command.terminate, p2⟩ :: rest, current := [] } }
      schedule).2.unlooped =
    (slave_t.run { s with m_bus :=
        { inbound := ⟨command.terminate, p1⟩ :: rest, current := [] } } schedule).2.unlooped ∧
    (slave_t.process_events { s with m_bus :=
        { inbound := ⟨command.terminate, p1⟩ :: rest, current := [] } }).1 =
      [observation.received command.terminate, observation.sent message.terminate] ∧
    (slave_t.process_events { s with m_bus :=
        { inbound := ⟨command.terminate, p1⟩ :: rest, current := [] } }).2.unlooped = true := by
  refine ⟨(slave_t.run_terminate_twice p1 p2 schedule s rest).1,
    (slave_t.run_terminate_twice p1 p2 schedule s rest).2, ?_, ?_⟩ <;>
  simp [slave_t.process_events, channel.recv, channel.more, slave_t.terminate]

/-- C10, on a concrete run: two terminates and two turns of the fd watcher produce the
observations of one terminate, namely its receipt and one terminate frame. -/
theorem terminate_idempotent_witness :
    (slave_t.run { scenario_slave with m_bus :=
        { inbound := ⟨command.terminate, []⟩ :: ⟨command.terminate, []⟩ :: [], current := [] } }
      [event.readable, event.readable]).1 =
    (slave_t.run { scenario_slave with m_bus :=
        { inbound := ⟨command.terminate, []⟩ :: [], current := [] } }
      [event.readable, event.readable]).1 ∧
    (slave_t.run { scenario_slave with m_bus :=
        { inbound := ⟨command.terminate, []⟩ :: ⟨command.terminate, []⟩ :: [], current := [] } }
      [event.readable, event.readable]).1 =
      [observation.received command.terminate, observation.sent message.terminate] :=
  ⟨(terminate_idempotent scenario_slave [] [] [] [event.readable, event.readable]).1, rfl⟩

/-! ## Heartbeat and disown -/

/-- Observations other than a sent ping or a received pong do not change the flag. -/
theorem foldl_outstanding_quiet (t : List observation) :
    ∀ flag, (∀ o ∈ t, o ≠ observation.sent message.ping ∧ o ≠ observation.received command.pong) →
      t.foldl outstanding_after flag = flag := by
  induction t with
  | nil => intro flag _; rfl
  | cons o t ih =>
    intro flag h
    have ho := h o (List.mem_cons_self o t)
    have hstep : outstanding_after flag o = flag := by
      cases o with
      | sent frame => cases frame <;> simp_all [outstanding_after]
      | received tag => cases tag <;> simp_all [outstanding_after]
    rw [List.foldl_cons, hstep]
    exact ih flag (fun o2 h2 => h o2 (List.mem_cons_of_mem o h2))

/-- The one-pass flag is the property it stands for: some ping was sent after which no pong
was received. -/
theorem ping_outstanding_iff (history : List observation) :
    ping_outstanding history = true ↔
      ∃ pre post, history = pre ++ observation.sent message.ping :: post ∧
        observation.received command.pong ∉ post := by
  induction history using List.reverseRecOn with
  | nil => simp [ping_outstanding]
  | append_singleton h o ih =>
    have hfold : ping_outstanding (h ++ [o]) = outstanding_after (ping_outstanding h) o := by
      simp [ping_outstanding, List.foldl_append]
    rw [hfold]
    by_cases hping : o = observation.sent message.ping
    · subst hping
      simp only [outstanding_after, true_iff]
      exact ⟨h, [], rfl, by simp⟩
    · by_cases hpong : o = observation.received command.pong
      · subst hpong
        simp only [outstanding_after, Bool.false_eq_true, false_iff]
        rintro ⟨pre, post, heq, hpost⟩
        rcases List.eq_nil_or_concat post with hnil | ⟨post2, x, hx⟩
        · subst hnil
          have := List.append_inj_right' (by simpa using heq :
            h ++ [observation.received command.pong] = pre ++ [observation.sent message.ping]) rfl
          simp at this
        · subst hx
          have h2 : h ++ [observation.received command.pong] =
              (pre ++ observation.sent message.ping :: post2) ++ [x] := by simpa using heq
          have := List.append_inj_right' h2 rfl
          simp at this
          subst this
          simp at hpost
      · have hstep : outstanding_after (ping_outstanding h) o = ping_outstanding h := by
          cases o with
          | sent frame => cases frame <;> simp_all [outstanding_after]
          | received tag => cases tag <;> simp_all [outstanding_after]
        rw [hstep, ih]
        constructor
        · rintro ⟨pre, post, heq, hpost⟩
          refine ⟨pre, post ++ [o], by simp [heq], ?_⟩
          simp only [List.mem_append, List.mem_singleton, not_or]
          exact ⟨hpost, fun hc => hpong hc.symm⟩
        · rintro ⟨pre, post, heq, hpost⟩
          rcases List.eq_nil_or_concat post with hnil | ⟨post2, x, hx⟩
          · subst hnil
            have := List.append_inj_right' (by simpa using heq :
              h ++ [o] = pre ++ [observation.sent message.ping]) rfl
            simp at this
            exact absurd this hping
          · subst hx
            have h2 : h ++ [o] = (pre ++ observation.sent message.ping :: post2) ++ [x] := by
              simpa using heq
            have h3 := List.append_inj_left' h2 rfl
            refine ⟨pre, post2, h3, ?_⟩
            intro hc
            exact hpost (by simp [hc])

/-- The frames of an invocation are neither pings nor received pongs. -/
theorem slave_t.invoke_quiet (s : slave_t σ) (event : String) :
    ∀ o ∈ (s.invoke event).1,
      o ≠ observation.sent message.ping ∧ o ≠ observation.received command.pong := by
  intro o h
  simp only [slave_t.invoke, List.mem_append, List.mem_singleton] at h
  rcases h with (h | h) | h
  · obtain ⟨data, hd⟩ := invocation.run_trace _ s o h
    subst hd
    simp
  · obtain ⟨code, what, he⟩ := caught_error _ o h
    subst he
    simp
  · subst h
    simp

/-- An invocation leaves the disown timer and the loop alone. -/
theorem slave_t.invoke_frame (s : slave_t σ) (event : String) :
    (s.invoke event).2.m_disown_timer = s.m_disown_timer ∧
      (s.invoke event).2.unlooped = s.unlooped := by
  have h := invocation.run_frame (s.m_sandbox.invoke s.m_sandbox.state event) s
  simp [slave_t.invoke, h.1, h.2.2.2.1]

/-- Processing one command keeps the disown timer in step with the outstanding ping, as long as
the loop is still running afterwards. -/
theorem slave_t.process_events_outstanding (s : slave_t σ) (history : List observation)
    (hinv : s.m_disown_timer.isSome = ping_outstanding history)
    (hrun : s.process_events.2.unlooped = false) :
    s.process_events.2.m_disown_timer.isSome =
      ping_outstanding (history ++ s.process_events.1) := by
  unfold slave_t.process_events at hrun ⊢
  cases hr : s.m_bus.recv with
  | mk tag bus =>
    cases tag with
    | none => simpa [hr] using hinv
    | some tag =>
      cases tag with
      | pong => simp [hr, ping_outstanding, List.foldl_append, outstanding_after]
      | invoke =>
        simp only [hr] at hrun ⊢
        rw [(slave_t.invoke_frame _ _).1]
        simp only [ping_outstanding, List.foldl_append, List.foldl_cons, outstanding_after]
        rw [foldl_outstanding_quiet _ _ (slave_t.invoke_quiet _ _)]
        simpa [ping_outstanding] using hinv
      | terminate => simp [hr, slave_t.terminate] at hrun
      | ping => simpa [hr, ping_outstanding, List.foldl_append, outstanding_after] using hinv
      | chunk => simpa [hr, ping_outstanding, List.foldl_append, outstanding_after] using hinv
      | error => simpa [hr, ping_outstanding, List.foldl_append, outstanding_after] using hinv
      | choke => simpa [hr, ping_outstanding, List.foldl_append, outstanding_after] using hinv
      | unknown code =>
        simpa [hr, ping_outstanding, List.foldl_append, outstanding_after] using hinv

/-- One turn of the loop keeps the disown timer in step with the outstanding ping. -/
theorem slave_t.dispatch_outstanding (s : slave_t σ) (history : List observation) (e : event)
    (hinv : s.unlooped = false → s.m_disown_timer.isSome = ping_outstanding history)
    (hrun : (s.dispatch e).2.unlooped = false) :
    (s.dispatch e).2.m_disown_timer.isSome = ping_outstanding (history ++ (s.dispatch e).1) := by
  have hs : s.unlooped = false := by
    cases hu : s.unlooped with
    | false => rfl
    | true => rw [(s.dispatch_unlooped e hu).2] at hrun; cases hrun
  have h0 := hinv hs
  cases e with
  | deliver frame => simpa [slave_t.dispatch] using h0
  | elapse dt => simpa [slave_t.dispatch] using h0
  | readable =>
    simp only [slave_t.dispatch, hs, Bool.false_eq_true, if_false] at hrun ⊢
    unfold slave_t.on_event at hrun ⊢
    by_cases hp : s.m_bus.pending = true
    · simp only [hp, if_true] at hrun ⊢
      exact slave_t.process_events_outstanding _ history h0 hrun
    · simpa [hp] using h0
  | prepare =>
    by_cases hc : (s.unlooped || !s.m_checker) = true
    · simpa [slave_t.dispatch, hc] using h0
    · simpa [slave_t.dispatch, hc, slave_t.on_check] using h0
  | heartbeat =>
    cases ht : s.m_heartbeat_timer with
    | none => simpa [slave_t.dispatch, ht] using h0
    | some deadline =>
      by_cases hc : (s.unlooped || decide (s.now < deadline)) = true
      · simpa [slave_t.dispatch, ht, hc] using h0
      · simp [slave_t.dispatch, ht, hc, slave_t.on_heartbeat, ping_outstanding,
          List.foldl_append, outstanding_after]
  | disown =>
    cases ht : s.m_disown_timer with
    | none => simpa [slave_t.dispatch, ht] using h0
    | some deadline =>
      by_cases hc : (s.unlooped || decide (s.now < deadline)) = true
      · simpa [slave_t.dispatch, ht, hc] using h0
      · simp [slave_t.dispatch, ht, hc, slave_t.on_disown] at hrun
  | idle =>
    cases ht : s.m_idle_timer with
    | none => simpa [slave_t.dispatch, ht] using h0
    | some deadline =>
      by_cases hc : (s.unlooped || decide (s.now < deadline)) = true
      · simpa [slave_t.dispatch, ht, hc] using h0
      · simp [slave_t.dispatch, ht, hc, slave_t.on_idle, slave_t.terminate] at hrun

/-- Along any schedule the disown timer stays in step with the outstanding ping. -/
theorem slave_t.run_outstanding (schedule : List event) :
    ∀ (s : slave_t σ) (history : List observation),
      (s.unlooped = false → s.m_disown_timer.isSome = ping_outstanding history) →
      (s.run schedule).2.unlooped = false →
      (s.run schedule).2.m_disown_timer.isSome =
        ping_outstanding (history ++ (s.run schedule).1) := by
  induction schedule with
  | nil => intro s history hinv hrun; simpa [slave_t.run] using hinv hrun
  | cons e es ih =>
    intro s history hinv hrun
    have h := ih (s.dispatch e).2 (history ++ (s.dispatch e).1)
      (s.dispatch_outstanding history e hinv) hrun
    simpa [slave_t.run, List.append_assoc] using h

/-- A slave that was constructed starts running, with the disown timer not armed, and its
constructor has sent nothing. -/
theorem slave_t.construct_ok (c : startup σ) (s0 : slave_t σ)
    (hc : (slave_t.construct c).2 = .ok s0) :
    (slave_t.construct c).1 = [] ∧ s0.m_disown_timer = none ∧ s0.unlooped = false := by
  unfold slave_t.construct at hc ⊢
  cases hm : c.manifest with
  | error e => simp [hm] at hc
  | ok m =>
    cases hp : c.profile with
    | error e => simp [hm, hp] at hc
    | ok profile =>
      cases hs : c.sandbox with
      | error e => simp [hm, hp, hs] at hc
      | ok sandbox =>
        simp only [hm, hp, hs, Except.ok.injEq] at hc
        subst hc
        simp

/-- C7: in every state of a constructed slave reached along a schedule of the event loop in
which the loop is still running, the disown timer is armed if and only if a ping has been sent
that no later pong has answered. Whenever `process_events` has processed a pong, the disown
timer is not armed afterwards. The heartbeat callback sends exactly one ping and arms the disown
timer with a deadline 5 s ahead. -/
theorem disown_armed_iff_ping_outstanding (c : startup σ) (s0 : slave_t σ)
    (schedule : List event) (hc : (slave_t.construct c).2 = .ok s0)
    (hrun : (s0.run schedule).2.unlooped = false) :
    ((s0.run schedule).2.m_disown_timer.isSome = true ↔
      ∃ pre post,
        (slave_t.construct c).1 ++ (s0.run schedule).1 =
          pre ++ observation.sent message.ping :: post ∧
        observation.received command.pong ∉ post) ∧
    (∀ s : slave_t σ, s.process_events.1 = [observation.received command.pong] →
      s.process_events.2.m_disown_timer = none) ∧
    (∀ s : slave_t σ, s.on_heartbeat =
      ([observation.sent message.ping], { s with m_disown_timer := some (s.now + 5000) })) := by
  obtain ⟨h1, h2, h3⟩ := slave_t.construct_ok c s0 hc
  refine ⟨?_, ?_, fun s => rfl⟩
  · have h := slave_t.run_outstanding schedule s0 []
      (fun _ => by simp [h2, ping_outstanding]) hrun
    rw [h1, h, ping_outstanding_iff]
  · intro s
    unfold slave_t.process_events
    cases hr : s.m_bus.recv with
    | mk tag bus =>
      cases tag with
      | none => simp [hr]
      | some tag => cases tag <;> simp [hr, slave_t.terminate]

/-- C7, on a concrete run: after a ping answered by a pong and a second ping five seconds
later, the disown timer is armed and the second ping is the unanswered one. -/
theorem disown_armed_iff_ping_outstanding_witness :
    ((scenario_slave.run [event.heartbeat, event.deliver ⟨command.pong, []⟩, event.readable,
        event.elapse 5000, event.heartbeat]).2.m_disown_timer.isSome = true ↔
      ∃ pre post,
        (slave_t.construct scenario_startup).1 ++
          (scenario_slave.run [event.heartbeat, event.deliver ⟨command.pong, []⟩, event.readable,
            event.elapse 5000, event.heartbeat]).1 =
          pre ++ observation.sent message.ping :: post ∧
        observation.received command.pong ∉ post) ∧
    (scenario_slave.run [event.heartbeat, event.deliver ⟨command.pong, []⟩, event.readable,
        event.elapse 5000, event.heartbeat]).2.m_disown_timer = some 10000 :=
  ⟨(disown_armed_iff_ping_outstanding scenario_startup scenario_slave
      [event.heartbeat, event.deliver ⟨command.pong, []⟩, event.readable, event.elapse 5000,
        event.heartbeat] rfl rfl).1, rfl⟩

/-! ## Plugin repository -/

/-- Registering factories touches neither the retained handles nor the record of calls. -/
theorem repository_t.foldl_insert_frame (target : String) (regs : List registration) :
    ∀ r : repository_t,
      (regs.foldl (repository_t.insert target) r).m_plugins = r.m_plugins ∧
      (regs.foldl (repository_t.insert target) r).calls = r.calls := by
  induction regs with
  | nil => intro r; exact ⟨rfl, rfl⟩
  | cons reg regs ih =>
    intro r
    have h := ih (repository_t.insert target r reg)
    simpa [repository_t.insert] using h

/-- The second half of `open`: it succeeds exactly when `initialize` is exported and returns;
then the handle is retained, otherwise a repository error is thrown and no handle is retained. -/
theorem repository_t.open_initialize_spec (r : repository_t) (target : String)
    (plugin : shared_object) :
    ((r.open_initialize target plugin).1 = .ok () ↔
      ∃ f, plugin.init = some f ∧ f.result = .ok ()) ∧
    ((r.open_initialize target plugin).1 = .ok () →
      (r.open_initialize target plugin).2.m_plugins = r.m_plugins ++ [target]) ∧
    ((r.open_initialize target plugin).1 ≠ .ok () →
      (∃ e : repository_error_t, (r.open_initialize target plugin).1 = .error e) ∧
      (r.open_initialize target plugin).2.m_plugins = r.m_plugins) := by
  unfold repository_t.open_initialize
  cases hi : plugin.init with
  | none => simp [repository_t.lt_dlclose_action]
  | some f =>
    have hf := repository_t.foldl_insert_frame target f.inserts
      { r with calls := r.calls ++ [call.init target] }
    cases hres : f.result with
    | ok u => simp [hres, hf.1]
    | error e =>
      cases e with
      | exception what => simp [hres, hf.1, repository_t.lt_dlclose_action]
      | unknown => simp [hres, hf.1, repository_t.lt_dlclose_action]

/-- Whatever is found at the target, `open` calls `lt_dlopenadvise` once, on the target. -/
theorem repository_t.open_opened (COCAINE_VERSION : Nat) (r : repository_t) (target : String)
    (file : Except String shared_object) :
    opened_targets (r.open_ COCAINE_VERSION target file).2.calls =
      opened_targets r.calls ++ [target] := by
  have hinit : ∀ (r0 : repository_t) (plugin : shared_object),
      opened_targets (r0.open_initialize target plugin).2.calls = opened_targets r0.calls := by
    intro r0 plugin
    unfold repository_t.open_initialize
    cases hi : plugin.init with
    | none => simp [repository_t.lt_dlclose_action, opened_targets, List.filterMap_append]
    | some f =>
      have hf := repository_t.foldl_insert_frame target f.inserts
        { r0 with calls := r0.calls ++ [call.init target] }
      cases hres : f.result with
      | ok u => simp [hres, hf.2, opened_targets, List.filterMap_append]
      | error e =>
        cases e <;>
          simp [hres, hf.2, repository_t.lt_dlclose_action, opened_targets,
            List.filterMap_append]
  unfold repository_t.open_
  cases file with
  | error lt_dlerror => simp [opened_targets, List.filterMap_append]
  | ok plugin =>
    cases hv : plugin.validation with
    | none =>
      simp only [hv]
      rw [hinit]
      simp [opened_targets, List.filterMap_append]
    | some v =>
      by_cases hgt : v > COCAINE_VERSION
      · simp [hv, hgt, repository_t.lt_dlclose_action, opened_targets, List.filterMap_append]
      · simp only [hv, hgt, if_false]
        rw [hinit]
        simp [opened_targets, List.filterMap_append]

/-- Whatever is found at the target, `open` retains the handle when it returns and retains
nothing when it throws. -/
theorem repository_t.open_plugins (COCAINE_VERSION : Nat) (r : repository_t) (target : String)
    (file : Except String shared_object) :
    ((r.open_ COCAINE_VERSION target file).1 = .ok () →
      (r.open_ COCAINE_VERSION target file).2.m_plugins = r.m_plugins ++ [target]) ∧
    (∀ e, (r.open_ COCAINE_VERSION target file).1 = .error e →
      (r.open_ COCAINE_VERSION target file).2.m_plugins = r.m_plugins) := by
  unfold repository_t.open_
  cases file with
  | error lt_dlerror => simp
  | ok plugin =>
    cases hv : plugin.validation with
    | none =>
      have h := repository_t.open_initialize_spec
        { r with calls := r.calls ++ [call.lt_dlopenadvise target] } target plugin
      simp only [hv]
      refine ⟨fun hok => by simpa using h.2.1 hok, fun e he => ?_⟩
      have hne : (repository_t.open_initialize
          { r with calls := r.calls ++ [call.lt_dlopenadvise target] } target plugin).1
          ≠ .ok () := by
        rw [he]; simp
      simpa using (h.2.2 hne).2
    | some v =>
      simp only [hv]
      by_cases hgt : v > COCAINE_VERSION
      · simp [hgt, repository_t.lt_dlclose_action]
      · have h := repository_t.open_initialize_spec
          { r with calls := r.calls ++ [call.lt_dlopenadvise target, call.validation target] }
          target plugin
        simp only [hgt, if_false]
        refine ⟨fun hok => by simpa using h.2.1 (by simpa using hok), fun e he => ?_⟩
        have hne : (repository_t.open_initialize
            { r with calls := r.calls ++ [call.lt_dlopenadvise target, call.validation target] }
            target plugin).1 ≠ .ok () := by
          have he2 : (repository_t.open_initialize
              { r with calls := r.calls ++
                [call.lt_dlopenadvise target, call.validation target] }
              target plugin).1 = .error e := by simpa using he
          rw [he2]; simp
        simpa using (h.2.2 hne).2

/-- The loop of `load` over entries that all open: every one is opened and retained. -/
theorem repository_t.load_entries_all (COCAINE_VERSION : Nat) (entries : List directory_entry) :
    ∀ r : repository_t,
      (∀ e ∈ entries, ∀ r0 : repository_t,
        (r0.open_ COCAINE_VERSION e.path e.object).1 = .ok ()) →
      (r.load_entries COCAINE_VERSION entries).1 = .ok () ∧
      (r.load_entries COCAINE_VERSION entries).2.m_plugins =
        r.m_plugins ++ entries.map directory_entry.path ∧
      opened_targets (r.load_entries COCAINE_VERSION entries).2.calls =
        opened_targets r.calls ++ entries.map directory_entry.path := by
  induction entries with
  | nil => intro r _; simp [repository_t.load_entries]
  | cons e es ih =>
    intro r h
    have hok := h e (List.mem_cons_self e es) r
    have hp := (repository_t.open_plugins COCAINE_VERSION r e.path e.object).1 hok
    have ho := repository_t.open_opened COCAINE_VERSION r e.path e.object
    have hrest := ih (r.open_ COCAINE_VERSION e.path e.object).2
      (fun e2 h2 => h e2 (List.mem_cons_of_mem e h2))
    have hsplit : r.open_ COCAINE_VERSION e.path e.object =
        (.ok (), (r.open_ COCAINE_VERSION e.path e.object).2) := by
      rw [← hok]
    unfold repository_t.load_entries
    rw [hsplit]
    simp only
    rw [hp, ho] at hrest
    simpa [List.append_assoc] using hrest

/-- The loop of `load` stops at the first entry whose `open` throws: the entries before it are
retained, the failure leaves the loop, and the entries after it are not opened. -/
theorem repository_t.load_entries_stops (COCAINE_VERSION : Nat) (failing : directory_entry)
    (post : List directory_entry) (err : repository_error_t)
    (hfail : ∀ r0 : repository_t,
      (r0.open_ COCAINE_VERSION failing.path failing.object).1 = .error err)
    (pre : List directory_entry) :
    ∀ r : repository_t,
      (∀ e ∈ pre, ∀ r0 : repository_t,
        (r0.open_ COCAINE_VERSION e.path e.object).1 = .ok ()) →
      (r.load_entries COCAINE_VERSION (pre ++ failing :: post)).1 = .error err ∧
      (r.load_entries COCAINE_VERSION (pre ++ failing :: post)).2.m_plugins =
        r.m_plugins ++ pre.map directory_entry.path ∧
      opened_targets (r.load_entries COCAINE_VERSION (pre ++ failing :: post)).2.calls =
        opened_targets r.calls ++ (pre ++ [failing]).map directory_entry.path := by
  induction pre with
  | nil =>
    intro r _
    have hf := hfail r
    have hp := (repository_t.open_plugins COCAINE_VERSION r failing.path failing.object).2 err hf
    have ho := repository_t.open_opened COCAINE_VERSION r failing.path failing.object
    have hsplit : r.open_ COCAINE_VERSION failing.path failing.object =
        (.error err, (r.open_ COCAINE_VERSION failing.path failing.object).2) := by
      rw [← hf]
    simp only [List.nil_append]
    unfold repository_t.load_entries
    rw [hsplit]
    simp [hp, ho]
  | cons e es ih =>
    intro r h
    have hok := h e (List.mem_cons_self e es) r
    have hp := (repository_t.open_plugins COCAINE_VERSION r e.path e.object).1 hok
    have ho := repository_t.open_opened COCAINE_VERSION r e.path e.object
    have hrest := ih (r.open_ COCAINE_VERSION e.path e.object).2
      (fun e2 h2 => h e2 (List.mem_cons_of_mem e h2))
    have hsplit : r.open_ COCAINE_VERSION e.path e.object =
        (.ok (), (r.open_ COCAINE_VERSION e.path e.object).2) := by
      rw [← hok]
    simp only [List.cons_append]
    unfold repository_t.load_entries
    rw [hsplit]
    simp only
    rw [hp, ho] at hrest
    simpa [List.append_assoc] using hrest

/-- C5: `repository_t::open` on a loadable shared object succeeds if and only if the version
asked by `validation`, when the symbol is exported, does not exceed the host version, and
`initialize` is exported and returns. On success the handle is appended once to the retained
handles; otherwise `open` fails with a repository error and the retained handles are unchanged.
When the version asked exceeds the host version, the calls made are `lt_dlopenadvise`,
`validation` and `lt_dlclose`: `initialize` is not called. -/
theorem open_succeeds_iff (COCAINE_VERSION : Nat) (r : repository_t) (target : String)
    (plugin : shared_object) :
    ((r.open_ COCAINE_VERSION target (.ok plugin)).1 = .ok () ↔
      (plugin.validation = none ∨ ∃ v, plugin.validation = some v ∧ v ≤ COCAINE_VERSION) ∧
        ∃ f, plugin.init = some f ∧ f.result = .ok ()) ∧
    ((r.open_ COCAINE_VERSION target (.ok plugin)).1 = .ok () →
      (r.open_ COCAINE_VERSION target (.ok plugin)).2.m_plugins = r.m_plugins ++ [target]) ∧
    ((r.open_ COCAINE_VERSION target (.ok plugin)).1 ≠ .ok () →
      (∃ e : repository_error_t, (r.open_ COCAINE_VERSION target (.ok plugin)).1 = .error e) ∧
      (r.open_ COCAINE_VERSION target (.ok plugin)).2.m_plugins = r.m_plugins) ∧
    (∀ v, plugin.validation = some v → COCAINE_VERSION < v →
      (r.open_ COCAINE_VERSION target (.ok plugin)).2.calls =
        r.calls ++ [call.lt_dlopenadvise target, call.validation target,
          call.lt_dlclose target]) := by
  unfold repository_t.open_
  cases hv : plugin.validation with
  | none =>
    have h := repository_t.open_initialize_spec
      { r with calls := r.calls ++ [call.lt_dlopenadvise target] } target plugin
    simpa [hv] using h
  | some v =>
    simp only [hv]
    by_cases hgt : v > COCAINE_VERSION
    · simp [hgt, repository_t.lt_dlclose_action, Nat.not_le.2 hgt]
    · have h := repository_t.open_initialize_spec
        { r with calls := r.calls ++ [call.lt_dlopenadvise target, call.validation target] }
        target plugin
      have hle : v ≤ COCAINE_VERSION := Nat.le_of_not_gt hgt
      simp only [hgt, if_false]
      refine ⟨?_, ?_, ?_, ?_⟩
      · simpa [hle] using h.1
      · simpa using h.2.1
      · simpa using h.2.2
      · intro v2 hv2 hlt
        simp only [Option.some.injEq] at hv2
        subst hv2
        exact absurd hlt hgt

/-- C5, on scenario S6: plugin A is adopted by a host of version 12 and its handle retained
once; plugin B, which asks for version 99, is refused without `initialize` being called. -/
theorem open_succeeds_iff_witness :
    (repository_t.construct.open_ 12 plugin_a.path plugin_a.object).2.m_plugins =
      [] ++ [plugin_a.path] ∧
    (repository_t.construct.open_ 12 plugin_b.path plugin_b.object).2.calls =
      [] ++ [call.lt_dlopenadvise plugin_b.path, call.validation plugin_b.path,
        call.lt_dlclose plugin_b.path] :=
  ⟨(open_succeeds_iff 12 repository_t.construct plugin_a.path
      { validation := some 11
        init := some { inserts := [⟨"sandbox", "python"⟩], result := .ok () } }).2.1 rfl,
   (open_succeeds_iff 12 repository_t.construct plugin_b.path
      { validation := some 99
        init := some { inserts := [⟨"sandbox", "nodejs"⟩], result := .ok () } }).2.2.2
      99 rfl (by decide)⟩

/-- C3, as stated, fails: when plugin B (version too high) is enumerated before plugin A,
`load` does not return normally but throws the error of B, A is never opened, and the type
registered by A is not found afterwards. -/
theorem load_aborts_on_first_failure :
    (repository_t.construct.load 12 (some [plugin_b, plugin_a])).1 =
      .error { what := "'/usr/lib/cocaine/b.cocaine-plugin' version requirements are not met" } ∧
    opened_targets (repository_t.construct.load 12 (some [plugin_b, plugin_a])).2.calls =
      [plugin_b.path] ∧
    (repository_t.construct.load 12 (some [plugin_b, plugin_a])).2.get "sandbox" "python" =
      .error { what := "the 'python' component is not available" } := by
  refine ⟨rfl, by decide, rfl⟩

/-- C3, amended: `load` returns at once when the path is not a directory; otherwise it calls
`open` on the regular files with extension `.cocaine-plugin` in enumeration order. When each of
them opens, all are opened and retained and `load` returns normally. When one of them fails,
the enumeration stops there: `load` throws that error, the plugins enumerated before it stay
retained, and the plugins enumerated after it are not opened. -/
theorem load_stops_at_first_failure (COCAINE_VERSION : Nat) (r : repository_t)
    (entries : List directory_entry) :
    r.load COCAINE_VERSION none = (.ok (), r) ∧
    ((∀ e ∈ entries.filter validate_t, ∀ r0 : repository_t,
        (r0.open_ COCAINE_VERSION e.path e.object).1 = .ok ()) →
      (r.load COCAINE_VERSION (some entries)).1 = .ok () ∧
      (r.load COCAINE_VERSION (some entries)).2.m_plugins =
        r.m_plugins ++ (entries.filter validate_t).map directory_entry.path ∧
      opened_targets (r.load COCAINE_VERSION (some entries)).2.calls =
        opened_targets r.calls ++ (entries.filter validate_t).map directory_entry.path) ∧
    (∀ pre failing post err, entries.filter validate_t = pre ++ failing :: post →
      (∀ e ∈ pre, ∀ r0 : repository_t,
        (r0.open_ COCAINE_VERSION e.path e.object).1 = .ok ()) →
      (∀ r0 : repository_t,
        (r0.open_ COCAINE_VERSION failing.path failing.object).1 = .error err) →
      (r.load COCAINE_VERSION (some entries)).1 = .error err ∧
      (r.load COCAINE_VERSION (some entries)).2.m_plugins =
        r.m_plugins ++ pre.map directory_entry.path ∧
      opened_targets (r.load COCAINE_VERSION (some entries)).2.calls =
        opened_targets r.calls ++ (pre ++ [failing]).map directory_entry.path) := by
  refine ⟨rfl, ?_, ?_⟩
  · intro h
    exact repository_t.load_entries_all COCAINE_VERSION _ r h
  · intro pre failing post err hsplit hpre hfail
    simp only [repository_t.load, hsplit]
    exact repository_t.load_entries_stops COCAINE_VERSION failing post err hfail pre r hpre

/-- C3, amended, on scenario S6 with a third plugin: with A enumerated first, then B, then C,
`load` throws the error of B, A is retained and its type is found, and C is not opened. -/
theorem load_stops_at_first_failure_witness :
    ((repository_t.construct.load 12 (some [plugin_a, plugin_b, plugin_c])).1 =
        .error { what := "'/usr/lib/cocaine/b.cocaine-plugin' version requirements are not met" } ∧
      (repository_t.construct.load 12 (some [plugin_a, plugin_b, plugin_c])).2.m_plugins =
        [] ++ [plugin_a].map directory_entry.path ∧
      opened_targets (repository_t.construct.load 12
          (some [plugin_a, plugin_b, plugin_c])).2.calls =
        opened_targets [] ++ ([plugin_a] ++ [plugin_b]).map directory_entry.path) ∧
    (repository_t.construct.load 12 (some [plugin_a, plugin_b, plugin_c])).2.get
      "sandbox" "python" = .ok { source := plugin_a.path } :=
  ⟨(load_stops_at_first_failure 12 repository_t.construct [plugin_a, plugin_b, plugin_c]).2.2
      [plugin_a] plugin_b [plugin_c]
      { what := "'/usr/lib/cocaine/b.cocaine-plugin' version requirements are not met" }
      rfl
      (by intro e he r0; simp only [List.mem_singleton] at he; subst he; rfl)
      (by intro r0; rfl),
   rfl⟩

/-- C4 fails on the code: after `open` has failed because `initialize` threw, the factory that
`initialize` had registered is still in the category maps and is found by `get`, although the
handle of the plugin has been closed and is not retained. -/
theorem open_failure_keeps_factory :
    (repository_t.construct.open_ 12 plugin_c.path plugin_c.object).1 =
      .error { what := "unable to initialize '/usr/lib/cocaine/c.cocaine-plugin' - no spool" } ∧
    (repository_t.construct.open_ 12 plugin_c.path plugin_c.object).2.m_categories ≠
      repository_t.construct.m_categories ∧
    (repository_t.construct.open_ 12 plugin_c.path plugin_c.object).2.get "storage" "files" =
      .ok { source := plugin_c.path } ∧
    (repository_t.construct.open_ 12 plugin_c.path plugin_c.object).2.m_plugins = [] ∧
    call.lt_dlclose plugin_c.path ∈
      (repository_t.construct.open_ 12 plugin_c.path plugin_c.object).2.calls := by
  refine ⟨rfl, by decide, rfl, by decide, by decide⟩

/-! ## Process isolate -/

/-- C6 fails on the code: for a path, one argument and one environment entry, the null
terminator of `argv` is stored at index 4 of an array of 4 slots and the one of `envp` at index
2 of an array of 2 slots, both outside the array, and the last slot of each array, where the
terminator belongs, is never written. -/
theorem spawn_terminators_outside :
    process_t.spawn 0 "/usr/bin/worker" [("--app", "echo")] [("HOME", "/tmp")] =
      .ok (spawned.execve
        { slots := [cell.str "/usr/bin/worker", cell.str "--app", cell.str "echo",
            cell.uninitialized]
          outside := [(4, cell.null)] }
        { slots := [cell.str "HOME=/tmp", cell.uninitialized]
          outside := [(2, cell.null)] }) := by
  rfl

/-- Storing at the index that follows a prefix replaces the element there. -/
theorem set_after_prefix (done : List cell) (old value : cell) (tail : List cell) :
    (done ++ old :: tail).set done.length value = done ++ value :: tail := by
  induction done with
  | nil => rfl
  | cons head rest ih => simp [ih]

/-- The loop over the environment fills the slots before the last one and leaves the last. -/
theorem envp_loop (todo : List (String × String)) :
    ∀ (done : List cell) (outside : List (Nat × cell)),
      (todo.foldl
        (fun (acc : c_array × Nat) it =>
          (acc.1.store acc.2 (cell.str (it.1 ++ "=" ++ it.2)), acc.2 + 1))
        ({ slots := done ++ List.replicate (todo.length + 1) cell.uninitialized,
           outside := outside }, done.length)).1 =
      { slots := done ++ todo.map (fun it => cell.str (it.1 ++ "=" ++ it.2))
          ++ [cell.uninitialized],
        outside := outside } := by
  induction todo with
  | nil => intro done outside; simp
  | cons it rest ih =>
    intro done outside
    have hstore : c_array.store
        { slots := done ++ List.replicate (rest.length + 1 + 1) cell.uninitialized,
          outside := outside } done.length (cell.str (it.1 ++ "=" ++ it.2)) =
        { slots := (done ++ [cell.str (it.1 ++ "=" ++ it.2)]) ++
            List.replicate (rest.length + 1) cell.uninitialized,
          outside := outside } := by
      have hlt : done.length <
          (done ++ List.replicate (rest.length + 1 + 1) cell.uninitialized).length := by
        simp
      simp only [c_array.store, hlt, if_true]
      rw [List.replicate_succ, set_after_prefix]
      simp
    have h := ih (done ++ [cell.str (it.1 ++ "=" ++ it.2)]) outside
    simp only [List.foldl_cons, List.length_cons, hstore]
    simpa using h

/-- The loop over the arguments fills the slots before the last one and leaves the last. -/
theorem argv_loop (todo : List (String × String)) :
    ∀ (done : List cell) (outside : List (Nat × cell)),
      (todo.foldl
        (fun (acc : c_array × Nat) it =>
          ((acc.1.store acc.2 (cell.str it.1)).store (acc.2 + 1) (cell.str it.2), acc.2 + 2))
        ({ slots := done ++ List.replicate (todo.length * 2 + 1) cell.uninitialized,
           outside := outside }, done.length)).1 =
      { slots := done ++ argv_cells todo ++ [cell.uninitialized], outside := outside } := by
  induction todo with
  | nil => intro done outside; simp [argv_cells]
  | cons it rest ih =>
    intro done outside
    have hlen : (rest.length + 1) * 2 + 1 = (rest.length * 2 + 1) + 1 + 1 := by omega
    have hstore : (c_array.store (c_array.store
        { slots := done ++ List.replicate ((rest.length + 1) * 2 + 1) cell.uninitialized,
          outside := outside } done.length (cell.str it.1)) (done.length + 1) (cell.str it.2)) =
        { slots := (done ++ [cell.str it.1, cell.str it.2]) ++
            List.replicate (rest.length * 2 + 1) cell.uninitialized,
          outside := outside } := by
      rw [hlen, List.replicate_succ, List.replicate_succ]
      have h1 : done.length < (done ++ cell.uninitialized :: cell.uninitialized ::
          List.replicate (rest.length * 2 + 1) cell.uninitialized).length := by simp
      simp only [c_array.store, h1, if_true, set_after_prefix]
      have h2 : done.length + 1 < (done ++ cell.str it.1 :: cell.uninitialized ::
          List.replicate (rest.length * 2 + 1) cell.uninitialized).length := by simp
      simp only [h2, if_true]
      have h3 := set_after_prefix (done ++ [cell.str it.1]) cell.uninitialized (cell.str it.2)
        (List.replicate (rest.length * 2 + 1) cell.uninitialized)
      simp only [List.length_append, List.length_singleton, List.append_assoc,
        List.singleton_append] at h3
      rw [h3]
      simp
    have h := ih (done ++ [cell.str it.1, cell.str it.2]) outside
    simp only [List.foldl_cons, List.length_cons, hstore]
    simpa [argv_cells] using h

/-- For every path, argument map and environment map, the child of `process_t::spawn` hands
`execve` an `argv` whose slots are the path and the argument strings followed by a slot that was
never written, and an `envp` whose slots are the `K=V` strings followed by a slot that was never
written; the two null terminators were stored one past the end of the arrays. -/
theorem process_t.spawn_child (path : String) (args environment : List (String × String)) :
    process_t.spawn 0 path args environment =
      .ok (spawned.execve
        { slots := cell.str path :: argv_cells args ++ [cell.uninitialized]
          outside := [(args.length * 2 + 2, cell.null)] }
        { slots := environment.map (fun it => cell.str (it.1 ++ "=" ++ it.2))
            ++ [cell.uninitialized]
          outside := [(environment.length + 1, cell.null)] }) := by
  have hargv := argv_loop args [cell.str path] [(args.length * 2 + 2, cell.null)]
  have henvp := envp_loop environment [] [(environment.length + 1, cell.null)]
  simp only [List.nil_append, List.length_nil, List.length_singleton, List.singleton_append]
    at hargv henvp
  have hA : ((c_array.declare (args.length * 2 + 2)).store 0 (cell.str path)).store
      ((c_array.declare (args.length * 2 + 2)).store 0 (cell.str path)).size cell.null =
      { slots := cell.str path :: List.replicate (args.length * 2 + 1) cell.uninitialized,
        outside := [(args.length * 2 + 2, cell.null)] } := by
    simp [c_array.declare, c_array.store, c_array.size, List.replicate_succ]
  have hE : (c_array.declare (environment.length + 1)).store
      (c_array.declare (environment.length + 1)).size cell.null =
      { slots := List.replicate (environment.length + 1) cell.uninitialized,
        outside := [(environment.length + 1, cell.null)] } := by
    simp [c_array.declare, c_array.store, c_array.size]
  simp only [process_t.spawn, if_true, hA, hE, hargv, henvp]

/-! ## Construction of the slave -/

/-- C11: when loading the manifest, loading the profile or acquiring the sandbox fails, the
constructor sends exactly `error(server_error, msg)` and then `terminate`, and rethrows the
failure to its caller, so that no slave is constructed; `msg` is the text of the exception when
it is a `std::exception`. When none of the three fails the constructor sends nothing and the
slave starts with the idle timer armed `profile.idle_timeout` ahead. -/
theorem construct_failure_reported (c : startup σ) :
    (∀ e, (c.manifest = .error e ∨ (c.manifest = .ok () ∧ c.profile = .error e) ∨
        (∃ p, c.manifest = .ok () ∧ c.profile = .ok p ∧ c.sandbox = .error e)) →
      ∃ msg, slave_t.construct c =
          ([observation.sent (message.error server_error msg),
            observation.sent message.terminate], .error e) ∧
        ∀ what, e = failure.exception what → msg = what) ∧
    (∀ p sb, c.manifest = .ok () → c.profile = .ok p → c.sandbox = .ok sb →
      ∃ s, slave_t.construct c = ([], .ok s) ∧
        s.m_idle_timer = some (c.now + p.idle_timeout) ∧ s.unlooped = false) := by
  have hfail : ∀ e : failure, ∃ msg, startup_failed e =
      [observation.sent (message.error server_error msg), observation.sent message.terminate] ∧
      ∀ what, e = failure.exception what → msg = what := by
    intro e
    cases e with
    | exception what => exact ⟨what, rfl, fun w hw => by cases hw; rfl⟩
    | unknown => exact ⟨_, rfl, fun w hw => by cases hw⟩
  constructor
  · intro e h
    obtain ⟨msg, hmsg, hwhat⟩ := hfail e
    refine ⟨msg, ?_, hwhat⟩
    rcases h with h | ⟨hm, hp⟩ | ⟨p, hm, hp, hs⟩
    · simp [slave_t.construct, h, hmsg]
    · simp [slave_t.construct, hm, hp, hmsg]
    · simp [slave_t.construct, hm, hp, hs, hmsg]
  · intro p sb hm hp hs
    simp [slave_t.construct, hm, hp, hs]

/-- C11, on concrete start-ups: a profile that cannot be loaded and a sandbox that cannot be
acquired are both answered with the error frame and terminate, and rethrown; the start-up of
the scenarios sends nothing and arms the idle timer at 60 s. -/
theorem construct_failure_reported_witness :
    (∃ msg, slave_t.construct
          { scenario_startup with profile := .error (failure.exception "no such profile") } =
          ([observation.sent (message.error server_error msg),
            observation.sent message.terminate],
           .error (failure.exception "no such profile")) ∧
        ∀ what, failure.exception "no such profile" = failure.exception what → msg = what) ∧
    (∃ msg, slave_t.construct
          ({ scenario_startup with sandbox := .error failure.unknown } : startup Nat) =
          ([observation.sent (message.error server_error msg),
            observation.sent message.terminate], .error failure.unknown) ∧
        ∀ what, failure.unknown = failure.exception what → msg = what) ∧
    (∃ s, slave_t.construct scenario_startup = ([], .ok s) ∧
        s.m_idle_timer = some (0 + 60000) ∧ s.unlooped = false) :=
  ⟨(construct_failure_reported
      { scenario_startup with profile := .error (failure.exception "no such profile") }).1
      (failure.exception "no such profile") (Or.inr (Or.inl ⟨rfl, rfl⟩)),
   (construct_failure_reported
      ({ scenario_startup with sandbox := .error failure.unknown } : startup Nat)).1
      failure.unknown (Or.inr (Or.inr ⟨{ idle_timeout := 60000 }, rfl, rfl, rfl⟩)),
   (construct_failure_reported scenario_startup).2 { idle_timeout := 60000 } scenario_sandbox
      rfl rfl rfl⟩

/-! ## Destruction of the repository -/

/-- Disposing of the plugins never touches the category maps, and ends with every handle of the
list closed once, in order. -/
theorem repository_t.dispose_spec (plugins : List String) :
    ∀ r : repository_t,
      (∀ st ∈ repository_t.dispose r plugins, st.m_categories = r.m_categories) ∧
      ((repository_t.dispose r plugins).getLast?.getD r).calls =
        r.calls ++ plugins.map call.lt_dlclose := by
  induction plugins with
  | nil => intro r; simp [repository_t.dispose]
  | cons plugin rest ih =>
    intro r
    obtain ⟨h1, h2⟩ := ih (r.lt_dlclose_action plugin)
    constructor
    · intro st hst
      simp only [repository_t.dispose, List.mem_cons] at hst
      rcases hst with hst | hst
      · subst hst; rfl
      · exact h1 st hst
    · simp only [repository_t.dispose, List.getLast?_cons, Option.getD_some, List.map_cons]
      rw [h2]
      simp [repository_t.lt_dlclose_action]

/-- The destructor on its own keeps the order it documents: its first statement leaves the
category maps empty before any handle is closed, the maps stay empty while the handles are
closed, and each retained handle is closed once, in order. -/
theorem repository_t.destructor_order (r : repository_t) :
    r.destructor.head? = some { r with m_categories := [] } ∧
    (∀ st ∈ r.destructor, st.m_categories = []) ∧
    r.destroy.m_categories = [] ∧
    r.destroy.calls = r.calls ++ r.m_plugins.map call.lt_dlclose ∧
    (r.destructor.getLast?.getD r).calls = r.destroy.calls := by
  obtain ⟨h1, h2⟩ := repository_t.dispose_spec r.m_plugins { r with m_categories := [] }
  refine ⟨rfl, ?_, rfl, rfl, ?_⟩
  · intro st hst
    simp only [repository_t.destructor, List.mem_cons] at hst
    rcases hst with hst | hst
    · subst hst; rfl
    · exact h1 st hst
  · simp only [repository_t.destructor, List.getLast?_cons, Option.getD_some,
      repository_t.destroy]
    exact h2

/-- C12 fails on the code: after plugin A was opened and the opening of plugin C failed in
`initialize`, the handle of C has been closed by `open` and is not retained, yet the factory
that C registered is still in the category maps and `get` serves it. The destructor then clears
the maps and closes the one retained handle, that of A, once. -/
theorem closed_plugin_factory_served :
    ((repository_t.construct.open_ 12 plugin_a.path plugin_a.object).2.open_ 12
        plugin_c.path plugin_c.object).2.calls =
      [call.lt_dlopenadvise plugin_a.path, call.validation plugin_a.path,
       call.init plugin_a.path, call.lt_dlopenadvise plugin_c.path, call.init plugin_c.path,
       call.lt_dlclose plugin_c.path] ∧
    ((repository_t.construct.open_ 12 plugin_a.path plugin_a.object).2.open_ 12
        plugin_c.path plugin_c.object).2.m_plugins = [plugin_a.path] ∧
    ((repository_t.construct.open_ 12 plugin_a.path plugin_a.object).2.open_ 12
        plugin_c.path plugin_c.object).2.get "storage" "files" =
      .ok { source := plugin_c.path } ∧
    ((repository_t.construct.open_ 12 plugin_a.path plugin_a.object).2.open_ 12
        plugin_c.path plugin_c.object).2.destroy =
      { m_categories := []
        m_plugins := [plugin_a.path]
        calls := [call.lt_dlopenadvise plugin_a.path, call.validation plugin_a.path,
          call.init plugin_a.path, call.lt_dlopenadvise plugin_c.path, call.init plugin_c.path,
          call.lt_dlclose plugin_c.path, call.lt_dlclose plugin_a.path] } := by
  refine ⟨by decide, by decide, rfl, by decide⟩

/-! ## Echo round trip -/

/-- The read path on a queued chunk frame returns its body and takes the frame off the bus
without tripping the assertion; on an empty bus it times out and returns the empty string. -/
theorem slave_t.read_spec (s : slave_t σ) (timeout : Int) :
    (∀ body rest, s.m_bus.inbound = ⟨command.chunk, [body]⟩ :: rest →
      s.read timeout =
        (body, { s with m_bus := { inbound := rest, current := [] } })) ∧
    (s.m_bus.inbound = [] → s.read timeout = ("", s)) := by
  constructor
  · intro body rest h
    simp [slave_t.read, channel.recv_tuple, h]
  · intro h
    simp [slave_t.read, channel.recv_tuple, h]

/-- The echo body run against a bus that holds non-empty chunks and nothing else: each chunk is
written back in order, the body returns, and the bus is left empty. -/
theorem echo_run (timeout : Int) (state : σ) (bodies : List String) :
    ∀ (rounds : Nat) (s : slave_t σ), (∀ b ∈ bodies, b ≠ "") → bodies.length < rounds →
      s.m_bus.inbound = bodies.map (fun b => ⟨command.chunk, [b]⟩) →
      ((echo timeout state rounds).run s).1 =
          bodies.map (fun b => observation.sent (message.chunk b)) ∧
        ((echo timeout state rounds).run s).2.1 = outcome.returned ∧
        ((echo timeout state rounds).run s).2.2.m_bus.inbound = [] ∧
        ((echo timeout state rounds).run s).2.2.failed_assertions = s.failed_assertions := by
  induction bodies with
  | nil =>
    intro rounds s _ hr hbus
    cases rounds with
    | zero => cases hr
    | succ rounds =>
      have hread := (s.read_spec timeout).2 (by simpa using hbus)
      simp [echo, invocation.run, hread, hbus]
  | cons b bs ih =>
    intro rounds s hne hr hbus
    cases rounds with
    | zero => cases hr
    | succ rounds =>
      have hb : b ≠ "" := hne b (List.mem_cons_self b bs)
      have hread := (s.read_spec timeout).1 b (bs.map (fun b => ⟨command.chunk, [b]⟩))
        (by simpa using hbus)
      have h := ih rounds { s with m_bus := { inbound := bs.map (fun b => ⟨command.chunk, [b]⟩),
                                              current := [] } }
        (fun b2 h2 => hne b2 (List.mem_cons_of_mem b h2))
        (by simpa using hr) rfl
      simp only [echo, invocation.run, hread, hb, if_false, slave_t.write, List.map_cons,
        List.singleton_append]
      exact ⟨by rw [h.1], h.2.1, h.2.2.1, h.2.2.2⟩

/-- C13, as stated, fails: with the chunks "a", "" and "b" queued, the read of the empty chunk
returns the empty string, exactly what a timeout returns, so the echo stops there: only
`chunk("a")` and choke are sent, and "b" is left on the bus. -/
theorem echo_stops_at_empty_chunk :
    (slave_t.invoke (echo_slave 10 [⟨command.chunk, ["a"]⟩, ⟨command.chunk, [""]⟩,
        ⟨command.chunk, ["b"]⟩]) "echo").1 =
      [observation.sent (message.chunk "a"), observation.sent message.choke] ∧
    (slave_t.invoke (echo_slave 10 [⟨command.chunk, ["a"]⟩, ⟨command.chunk, [""]⟩,
        ⟨command.chunk, ["b"]⟩]) "echo").2.m_bus.inbound = [⟨command.chunk, ["b"]⟩] ∧
    (slave_t.read (echo_slave 10 [⟨command.chunk, [""]⟩]) 1000).1 = "" ∧
    (slave_t.read (echo_slave 10 []) 1000).1 = "" := by
  refine ⟨rfl, by decide, rfl, rfl⟩

/-- C13, amended: for every sequence of non-empty input chunks queued for an invocation whose
sandbox echoes its input, the slave sends `chunk(C1)`, ..., `chunk(Cn)` in that order, with the
bodies of the inputs, followed by choke. The read path returns the body of a received chunk, and
returns the empty string on timeout. -/
theorem echo_round_trip (s : slave_t σ) (bodies : List String) (timeout : Int) (rounds : Nat)
    (event : String) (hne : ∀ b ∈ bodies, b ≠ "") (hrounds : bodies.length < rounds)
    (hbus : s.m_bus.inbound = bodies.map (fun b => ⟨command.chunk, [b]⟩))
    (hecho : s.m_sandbox.invoke s.m_sandbox.state event =
      echo timeout s.m_sandbox.state rounds) :
    (s.invoke event).1 =
      bodies.map (fun b => observation.sent (message.chunk b)) ++
        [observation.sent message.choke] ∧
    (∀ (t : slave_t σ) (body : String) (rest : List multipart),
      t.m_bus.inbound = ⟨command.chunk, [body]⟩ :: rest →
        (t.read timeout).1 = body ∧ (t.read timeout).2.m_bus.inbound = rest) ∧
    (∀ t : slave_t σ, t.m_bus.inbound = [] → t.read timeout = ("", t)) := by
  have h := echo_run timeout s.m_sandbox.state bodies rounds s hne hrounds hbus
  refine ⟨?_, ?_, fun t => (t.read_spec timeout).2⟩
  · simp [slave_t.invoke, hecho, h.1, h.2.1, caught]
  · intro t body rest ht
    rw [(t.read_spec timeout).1 body rest ht]
    exact ⟨rfl, rfl⟩

/-- C13, amended, on scenario S2 and on three chunks: the echo of "hi", and of "x", "yy",
"zzz" in that order. -/
theorem echo_round_trip_witness :
    (slave_t.invoke (echo_slave 10 [⟨command.chunk, ["hi"]⟩]) "echo").1 =
      [observation.sent (message.chunk "hi"), observation.sent message.choke] ∧
    (slave_t.invoke (echo_slave 10 [⟨command.chunk, ["x"]⟩, ⟨command.chunk, ["yy"]⟩,
        ⟨command.chunk, ["zzz"]⟩]) "echo").1 =
      [observation.sent (message.chunk "x"), observation.sent (message.chunk "yy"),
       observation.sent (message.chunk "zzz"), observation.sent message.choke] :=
  ⟨(echo_round_trip (echo_slave 10 [⟨command.chunk, ["hi"]⟩]) ["hi"] 1000 10 "echo"
      (by decide) (by decide) rfl rfl).1,
   (echo_round_trip (echo_slave 10 [⟨command.chunk, ["x"]⟩, ⟨command.chunk, ["yy"]⟩,
        ⟨command.chunk, ["zzz"]⟩]) ["x", "yy", "zzz"] 1000 10 "echo"
      (by decide) (by decide) rfl rfl).1⟩

/-! ## Frame boundaries -/

/-- The read path leaves the bus at a frame boundary and only takes frames off its queue. -/
theorem slave_t.read_bus (s : slave_t σ) (timeout : Int) (P : multipart → Prop)
    (hcur : s.m_bus.current = []) (hin : ∀ m ∈ s.m_bus.inbound, P m) :
    (s.read timeout).2.m_bus.current = [] ∧ ∀ m ∈ (s.read timeout).2.m_bus.inbound, P m := by
  unfold slave_t.read channel.recv_tuple
  cases h : s.m_bus.inbound with
  | nil => simp [hcur, h]
  | cons frame rest =>
    simp only [h]
    refine ⟨trivial, fun m hm => hin m ?_⟩
    rw [h]
    exact List.mem_cons_of_mem frame hm

/-- Running the sandbox body leaves the bus at a frame boundary and only takes frames off its
queue. -/
theorem invocation.run_bus (P : multipart → Prop) (p : invocation σ) :
    ∀ s : slave_t σ, s.m_bus.current = [] → (∀ m ∈ s.m_bus.inbound, P m) →
      (p.run s).2.2.m_bus.current = [] ∧ ∀ m ∈ (p.run s).2.2.m_bus.inbound, P m := by
  induction p with
  | returns st => intro s hcur hin; exact ⟨hcur, hin⟩
  | unrecoverable_error what st => intro s hcur hin; exact ⟨hcur, hin⟩
  | exception what st => intro s hcur hin; exact ⟨hcur, hin⟩
  | throws st => intro s hcur hin; exact ⟨hcur, hin⟩
  | write data next ih =>
    intro s hcur hin
    simpa [invocation.run, slave_t.write] using ih s hcur hin
  | read timeout next ih =>
    intro s hcur hin
    have h := s.read_bus timeout P hcur hin
    simpa [invocation.run] using ih (s.read timeout).1 (s.read timeout).2 h.1 h.2

/-- The handler of an invoke command leaves the bus at a frame boundary. -/
theorem slave_t.invoke_bus (P : multipart → Prop) (s : slave_t σ) (event : String)
    (hcur : s.m_bus.current = []) (hin : ∀ m ∈ s.m_bus.inbound, P m) :
    (s.invoke event).2.m_bus.current = [] ∧ ∀ m ∈ (s.invoke event).2.m_bus.inbound, P m := by
  have h := invocation.run_bus P (s.m_sandbox.invoke s.m_sandbox.state event) s hcur hin
  simpa [slave_t.invoke] using h

/-- Processing one command from a bus at a frame boundary whose queued frames have the payload
of the wire-frame table leaves such a bus. -/
theorem slave_t.process_events_bus (s : slave_t σ) (hcur : s.m_bus.current = [])
    (hin : ∀ m ∈ s.m_bus.inbound, m.conforms = true) :
    s.process_events.2.m_bus.current = [] ∧
      ∀ m ∈ s.process_events.2.m_bus.inbound, m.conforms = true := by
  unfold slave_t.process_events channel.recv
  cases h : s.m_bus.inbound with
  | nil => simp [hcur, h]
  | cons frame rest =>
    have hrest : ∀ m ∈ rest, m.conforms = true := fun m hm =>
      hin m (by rw [h]; exact List.mem_cons_of_mem frame hm)
    have hframe : frame.conforms = true := hin frame (by rw [h]; exact List.mem_cons_self _ _)
    obtain ⟨tag, payload⟩ := frame
    cases tag with
    | pong =>
      have hp : payload = [] := by simpa [multipart.conforms] using hframe
      simpa [h, hp] using hrest
    | terminate =>
      have hp : payload = [] := by simpa [multipart.conforms] using hframe
      simpa [h, hp, slave_t.terminate] using hrest
    | invoke =>
      have hp : payload.length = 1 := by simpa [multipart.conforms] using hframe
      obtain ⟨ev, hev⟩ := List.length_eq_one.1 hp
      subst hev
      simp only [h, channel.recv_string]
      exact slave_t.invoke_bus _ _ ev rfl hrest
    | chunk => simpa [h, channel.drop] using hrest
    | ping => simpa [h, channel.drop] using hrest
    | error => simpa [h, channel.drop] using hrest
    | choke => simpa [h, channel.drop] using hrest
    | unknown code => simpa [h, channel.drop] using hrest

/-- One turn of the loop keeps the bus at a frame boundary, when the frame delivered, if any,
has the payload of the wire-frame table. -/
theorem slave_t.dispatch_bus (s : slave_t σ) (e : event) (hcur : s.m_bus.current = [])
    (hin : ∀ m ∈ s.m_bus.inbound, m.conforms = true)
    (he : ∀ frame, e = event.deliver frame → frame.conforms = true) :
    (s.dispatch e).2.m_bus.current = [] ∧
      ∀ m ∈ (s.dispatch e).2.m_bus.inbound, m.conforms = true := by
  cases e with
  | deliver frame =>
    refine ⟨by simpa [slave_t.dispatch] using hcur, ?_⟩
    intro m hm
    simp only [slave_t.dispatch, List.mem_append, List.mem_singleton] at hm
    rcases hm with hm | hm
    · exact hin m hm
    · subst hm; exact he _ rfl
  | elapse dt => exact ⟨hcur, hin⟩
  | readable =>
    simp only [slave_t.dispatch]
    by_cases hu : s.unlooped = true
    · simpa [hu] using And.intro hcur hin
    · simp only [hu, Bool.false_eq_true, if_false]
      unfold slave_t.on_event
      by_cases hp : s.m_bus.pending = true
      · simp only [hp, if_true]
        exact slave_t.process_events_bus _ hcur hin
      · simpa [hp] using And.intro hcur hin
  | prepare =>
    by_cases hc : (s.unlooped || !s.m_checker) = true
    · simpa [slave_t.dispatch, hc] using And.intro hcur hin
    · simpa [slave_t.dispatch, hc, slave_t.on_check] using And.intro hcur hin
  | heartbeat =>
    cases ht : s.m_heartbeat_timer with
    | none => simpa [slave_t.dispatch, ht] using And.intro hcur hin
    | some deadline =>
      by_cases hc : (s.unlooped || decide (s.now < deadline)) = true
      · simpa [slave_t.dispatch, ht, hc] using And.intro hcur hin
      · simpa [slave_t.dispatch, ht, hc, slave_t.on_heartbeat] using And.intro hcur hin
  | disown =>
    cases ht : s.m_disown_timer with
    | none => simpa [slave_t.dispatch, ht] using And.intro hcur hin
    | some deadline =>
      by_cases hc : (s.unlooped || decide (s.now < deadline)) = true
      · simpa [slave_t.dispatch, ht, hc] using And.intro hcur hin
      · simpa [slave_t.dispatch, ht, hc, slave_t.on_disown] using And.intro hcur hin
  | idle =>
    cases ht : s.m_idle_timer with
    | none => simpa [slave_t.dispatch, ht] using And.intro hcur hin
    | some deadline =>
      by_cases hc : (s.unlooped || decide (s.now < deadline)) = true
      · simpa [slave_t.dispatch, ht, hc] using And.intro hcur hin
      · simpa [slave_t.dispatch, ht, hc, slave_t.on_idle, slave_t.terminate] using
          And.intro hcur hin

/-- Along any schedule whose delivered frames have the payload of the wire-frame table, the bus
stays at a frame boundary. -/
theorem slave_t.schedule_bus (schedule : List event) :
    ∀ s : slave_t σ, s.m_bus.current = [] → (∀ m ∈ s.m_bus.inbound, m.conforms = true) →
      (∀ frame, event.deliver frame ∈ schedule → frame.conforms = true) →
      (s.run schedule).2.m_bus.current = [] ∧
        ∀ m ∈ (s.run schedule).2.m_bus.inbound, m.conforms = true := by
  induction schedule with
  | nil => intro s hcur hin _; exact ⟨hcur, hin⟩
  | cons e es ih =>
    intro s hcur hin hconf
    have hd := s.dispatch_bus e hcur hin
      (fun frame hf => hconf frame (by rw [hf]; exact List.mem_cons_self _ _))
    have h := ih (s.dispatch e).2 hd.1 hd.2
      (fun frame hf => hconf frame (List.mem_cons_of_mem e hf))
    simpa [slave_t.run] using h

/-- Where the assertion on `more()` does hold: along every schedule of the event loop of a
constructed slave whose incoming frames all carry the payload of the wire-frame table (none for
pong and terminate, the event for invoke, anything for the commands that are dropped), the bus
is not mid-frame between two callbacks; and each call of `process_events` that starts at a
frame boundary with such frames queued ends at one, whichever command it received. -/
theorem bus_never_mid_frame (c : startup σ) (s0 : slave_t σ) (schedule : List event)
    (hc : (slave_t.construct c).2 = .ok s0)
    (hconf : ∀ frame, event.deliver frame ∈ schedule → frame.conforms = true) :
    (s0.run schedule).2.m_bus.more = false ∧
    (∀ s : slave_t σ, s.m_bus.more = false → (∀ m ∈ s.m_bus.inbound, m.conforms = true) →
      s.process_events.2.m_bus.more = false) := by
  have h0 : s0.m_bus.current = [] ∧ s0.m_bus.inbound = [] := by
    unfold slave_t.construct at hc
    cases hm : c.manifest with
    | error e => simp [hm] at hc
    | ok m =>
      cases hp : c.profile with
      | error e => simp [hm, hp] at hc
      | ok profile =>
        cases hs : c.sandbox with
        | error e => simp [hm, hp, hs] at hc
        | ok sandbox =>
          simp only [hm, hp, hs, Except.ok.injEq] at hc
          subst hc
          exact ⟨rfl, rfl⟩
  constructor
  · have h := slave_t.schedule_bus schedule s0 h0.1 (by simp [h0.2]) hconf
    simp [channel.more, h.1]
  · intro s hmore hin
    have hcur : s.m_bus.current = [] := by simpa [channel.more] using hmore
    have h := s.process_events_bus hcur hin
    simp [channel.more, h.1]

/-- The bus at a frame boundary on a concrete stream of frames of the wire-frame table: a
pong, an invoke of the echo, a chunk read by the echo, a stale chunk, an unknown command with
two payload parts and a terminate, processed one by one. -/
theorem bus_never_mid_frame_witness :
    (scenario_slave.run
      [event.deliver ⟨command.pong, []⟩, event.deliver ⟨command.invoke, ["echo"]⟩,
       event.deliver ⟨command.chunk, ["hi"]⟩, event.deliver ⟨command.chunk, ["stale"]⟩,
       event.deliver ⟨command.unknown 42, ["x", "y"]⟩, event.deliver ⟨command.terminate, []⟩,
       event.readable, event.readable, event.readable, event.readable,
       event.readable]).2.m_bus.more = false :=
  (bus_never_mid_frame scenario_startup scenario_slave
    [event.deliver ⟨command.pong, []⟩, event.deliver ⟨command.invoke, ["echo"]⟩,
     event.deliver ⟨command.chunk, ["hi"]⟩, event.deliver ⟨command.chunk, ["stale"]⟩,
     event.deliver ⟨command.unknown 42, ["x", "y"]⟩, event.deliver ⟨command.terminate, []⟩,
     event.readable, event.readable, event.readable, event.readable, event.readable]
    rfl (by
      intro frame h
      simp only [List.mem_cons, event.deliver.injEq, reduceCtorEq, List.not_mem_nil,
        or_false] at h
      rcases h with h | h | h | h | h | h <;> subst h <;> rfl)).1

/-- C14 fails on the code: a pong frame that carries a payload part is received like any pong,
but the pong branch of `process_events`, unlike the chunk and default branches, does not call
`drop()`: the part is not consumed and the bus is left mid-frame when the call returns, so that
at the entry of the next `process_events` the asserted condition `!m_bus.more()` is false. -/
theorem pong_with_payload_left_mid_frame :
    (scenario_slave.run
      [event.deliver ⟨command.pong, ["x"]⟩, event.readable]).1 =
      [observation.received command.pong] ∧
    (scenario_slave.run
      [event.deliver ⟨command.pong, ["x"]⟩, event.readable]).2.m_bus.more = true ∧
    (scenario_slave.run
      [event.deliver ⟨command.pong, ["x"]⟩, event.deliver ⟨command.pong, []⟩, event.readable,
       event.readable]).2.failed_assertions = true := by
  refine ⟨by decide, by decide, by decide⟩

/-! ## Encoder buffer -/

/-- Growing a vector keeps its bytes and appends zero bytes up to the new size. -/
theorem vector_resize_grow (vector : List Nat) (n : Nat) (h : vector.length ≤ n) :
    vector_resize vector n = vector ++ List.replicate (n - vector.length) 0 ∧
      (vector_resize vector n).length = n := by
  have ht : vector.take n = vector := List.take_of_length_le h
  constructor
  · simp [vector_resize, ht]
  · simp only [vector_resize, ht, List.length_append, List.length_replicate]
    omega

/-- The doubling loop ends within as many turns as bytes are missing: it leaves the offset
alone, makes room for the data, multiplies the size by a power of two and keeps the bytes. -/
theorem encoded_buffers_t.reserve_spec (size : Nat) :
    ∀ (fuel : Nat) (b : encoded_buffers_t), b.offset ≤ b.vector.length → 0 < b.vector.length →
      size - (b.vector.length - b.offset) ≤ fuel →
      ∃ grown k pad, encoded_buffers_t.reserve fuel size b = some grown ∧
        grown.offset = b.offset ∧ size ≤ grown.vector.length - grown.offset ∧
        grown.vector.length = b.vector.length * 2 ^ k ∧ grown.vector = b.vector ++ pad := by
  intro fuel
  induction fuel with
  | zero =>
    intro b hoff hpos hfuel
    refine ⟨b, 0, [], ?_, rfl, by omega, by simp, by simp⟩
    rw [encoded_buffers_t.reserve]
    have : ¬ size > b.vector.length - b.offset := by omega
    simp [this]
  | succ fuel ih =>
    intro b hoff hpos hfuel
    by_cases hc : size > b.vector.length - b.offset
    · have hgrow := vector_resize_grow b.vector (b.vector.length * 2) (by omega)
      obtain ⟨grown, k, pad, h1, h2, h3, h4, h5⟩ :=
        ih { b with vector := vector_resize b.vector (b.vector.length * 2) }
          (by simp only [hgrow.2]; omega) (by simp only [hgrow.2]; omega)
          (by simp only [hgrow.2]; omega)
      refine ⟨grown, k + 1, List.replicate (b.vector.length * 2 - b.vector.length) 0 ++ pad,
        ?_, h2, h3, ?_, ?_⟩
      · rw [encoded_buffers_t.reserve]
        simp only [hc, if_true]
        exact h1
      · rw [h4]
        simp only [hgrow.2]
        rw [pow_succ]
        ring
      · rw [h5]
        simp only [hgrow.1, List.append_assoc]
    · refine ⟨b, 0, [], ?_, rfl, by omega, by simp, by simp⟩
      rw [encoded_buffers_t.reserve]
      simp [hc]

/-- One write on a buffer whose offset lies within its non-empty vector: the loop ends, the
offset advances by the size of the data and stays within the vector, the size of the vector is
multiplied by a power of two, and the bytes up to the new offset are the bytes up to the old
offset followed by the data. -/
theorem encoded_buffers_t.write_spec (fuel : Nat) (data : List Nat) (b : encoded_buffers_t)
    (hoff : b.offset ≤ b.vector.length) (hpos : 0 < b.vector.length)
    (hfuel : data.length ≤ fuel) :
    ∃ written k, b.write fuel data = some written ∧
      written.offset = b.offset + data.length ∧ written.offset ≤ written.vector.length ∧
      written.vector.length = b.vector.length * 2 ^ k ∧
      written.vector.take written.offset = b.vector.take b.offset ++ data := by
  obtain ⟨grown, k, pad, h1, h2, h3, h4, h5⟩ :=
    encoded_buffers_t.reserve_spec data.length fuel b hoff hpos (by omega)
  have hlen : b.vector.length ≤ grown.vector.length := by
    rw [h5]; simp
  have hroom : grown.offset + data.length ≤ grown.vector.length := by omega
  have htake : (grown.vector.take grown.offset).length = grown.offset := by
    rw [List.length_take]; omega
  refine ⟨{ vector := vector_memcpy grown.vector grown.offset data
            offset := grown.offset + data.length }, k, ?_, ?_, ?_, ?_, ?_⟩
  · simp [encoded_buffers_t.write, h1]
  · simp [h2]
  · simp only [vector_memcpy, List.length_append, List.length_drop, htake]
    omega
  · simp only [vector_memcpy, List.length_append, List.length_drop, htake]
    rw [← h4]
    omega
  · have hpre : grown.vector.take grown.offset = b.vector.take b.offset := by
      rw [h5, h2, List.take_append_of_le_length hoff]
    have hl : (grown.vector.take grown.offset ++ data).length = grown.offset + data.length := by
      rw [List.length_append, htake]
    simp only [vector_memcpy]
    rw [List.take_left' hl, hpre]

/-- A sequence of writes on a buffer whose offset lies within its non-empty vector. -/
theorem encoded_buffers_t.write_all_spec (fuel : Nat) (datas : List (List Nat)) :
    ∀ b : encoded_buffers_t, b.offset ≤ b.vector.length → 0 < b.vector.length →
      (∀ data ∈ datas, data.length ≤ fuel) →
      ∃ written k, b.write_all fuel datas = some written ∧
        written.offset = b.offset + (datas.map List.length).sum ∧
        written.offset ≤ written.vector.length ∧
        written.vector.length = b.vector.length * 2 ^ k ∧
        written.vector.take written.offset = b.vector.take b.offset ++ datas.flatten := by
  induction datas with
  | nil =>
    intro b hoff hpos _
    exact ⟨b, 0, rfl, by simp, hoff, by simp, by simp⟩
  | cons data rest ih =>
    intro b hoff hpos hfuel
    obtain ⟨w1, k1, a1, a2, a3, a4, a5⟩ :=
      b.write_spec fuel data hoff hpos (hfuel data (List.mem_cons_self data rest))
    have hpos1 : 0 < w1.vector.length := by
      rw [a4]; exact Nat.mul_pos hpos (pow_pos (by decide) k1)
    obtain ⟨w2, k2, c1, c2, c3, c4, c5⟩ :=
      ih w1 a3 hpos1 (fun d hd => hfuel d (List.mem_cons_of_mem data hd))
    refine ⟨w2, k1 + k2, ?_, ?_, c3, ?_, ?_⟩
    · simp [encoded_buffers_t.write_all, a1, c1]
    · rw [c2, a2]; simp [Nat.add_assoc]
    · rw [c4, a4, pow_add, Nat.mul_assoc]
    · rw [c5, a5]; simp

/-- C15: for every sequence of calls `write(d1), ..., write(dk)` on a freshly constructed
buffer, the doubling loop of each write ends (within as many turns as the longest data has
bytes), the offset afterwards is `|d1| + ... + |dk|` and does not exceed the size of the vector,
which is `4096 * 2^j` for some `j`, and the first `offset` bytes of the vector, which are the
bytes exposed by `data()` and `size()`, are `d1 ++ ... ++ dk`. -/
theorem writes_pack_concatenation (datas : List (List Nat)) (fuel : Nat)
    (hfuel : ∀ data ∈ datas, data.length ≤ fuel) :
    ∃ written j, encoded_buffers_t.construct.write_all fuel datas = some written ∧
      written.offset = (datas.map List.length).sum ∧
      written.offset ≤ written.vector.length ∧
      written.vector.length = 4096 * 2 ^ j ∧
      written.vector.take written.offset = datas.flatten ∧
      (encoded_message_t.mk written).data.take (encoded_message_t.mk written).size =
        datas.flatten := by
  have hlen : encoded_buffers_t.construct.vector.length = 4096 :=
    (vector_resize_grow [] kInitialBufferSize (Nat.zero_le _)).2
  obtain ⟨written, k, h1, h2, h3, h4, h5⟩ :=
    encoded_buffers_t.write_all_spec fuel datas encoded_buffers_t.construct
      (by simp [encoded_buffers_t.construct]) (by rw [hlen]; decide) hfuel
  have hoff : encoded_buffers_t.construct.offset = 0 := rfl
  rw [hoff] at h2 h5
  rw [hlen] at h4
  simp only [Nat.zero_add, List.take_zero, List.nil_append] at h2 h5
  exact ⟨written, k, h1, h2, h3, h4, h5, h5⟩

/-- C15, on a concrete sequence: the three writes of `[1, 2]`, `[]` and `[3, 4, 5]`, with three
turns allowed to each loop. -/
theorem writes_pack_concatenation_witness :
    ∃ written j, encoded_buffers_t.construct.write_all 3 [[1, 2], [], [3, 4, 5]] = some written ∧
      written.offset = ([[1, 2], [], [3, 4, 5]].map List.length).sum ∧
      written.offset ≤ written.vector.length ∧
      written.vector.length = 4096 * 2 ^ j ∧
      written.vector.take written.offset = [[1, 2], [], [3, 4, 5]].flatten ∧
      (encoded_message_t.mk written).data.take (encoded_message_t.mk written).size =
        [[1, 2], [], [3, 4, 5]].flatten :=
  writes_pack_concatenation [[1, 2], [], [3, 4, 5]] 3 (by decide)

end cocaine
